import Mathlib

/-!
Shallow embedding of the reference-resolution and graph-normalization engine of
the fsxa-api repository (src/modules/CaaSMapper.ts and the response-processing
part of src/modules/FSXARemoteApi.ts), together with proofs of the spec claims.

Content nodes arriving from the CaaS store are dynamically typed JSON values;
we embed them as the inductive `CJson`.  JavaScript object member access,
truthiness, string `indexOf`/`substring`, object spread and `Object.keys`
are modelled by the `js*` helpers below.  The mapper's mutable fields
(`resolvedReferences`, `_referencedItems`, `_remoteReferences`,
`referenceDepth`, logging) become the explicit state record `MState`,
threaded through every function.  External collaborators (XML parser,
date-fns parseISO, custom mapper hook, HTTP fetch) are parameters of the
context `Ctx`; fetch rounds are emitted as `FetchCall` values instead of
being executed.  The general recursion of the content-tree mapper (which in
the source may re-enter itself through parsed rich-text) is made total with
an explicit fuel argument; running out of fuel is the distinguished outcome
`Err.outOfFuel`, and thrown JS errors are `Err.thrown`.
-/

/-- A JSON-like value, the shape of raw CaaS content nodes and of mapped
results alike (the TS code is dynamically typed).  JS `undefined` and `null`
are conflated to `.null` except where the distinction matters (the custom
mapper hook, modelled with `Option`). -/
inductive CJson where
  | null : CJson
  | bool (b : Bool) : CJson
  | num (n : Int) : CJson
  | str (s : String) : CJson
  | arr (elems : List CJson) : CJson
  | obj (fields : List (String × CJson)) : CJson

/-- JS truthiness (`NaN` aside, which `Int` cannot represent). -/
def CJson.truthy : CJson → Bool
  | .null => false
  | .bool b => b
  | .num n => n != 0
  | .str s => s != ""
  | .arr _ => true
  | .obj _ => true

/-- Association-list lookup, the JS semantics of reading `o[k]` on an object
whose keys are unique (first match wins). -/
def alookup {α : Type} : List (String × α) → String → Option α
  | [], _ => none
  | (k', v') :: rest, k => if k' = k then some v' else alookup rest k

/-- JS property write `o[k] = v`: an existing key is updated in place, a new
key is appended at the end (JS objects preserve insertion order). -/
def aset {α : Type} : List (String × α) → String → α → List (String × α)
  | [], k, v => [(k, v)]
  | (k', v') :: rest, k, v =>
      if k' = k then (k', v) :: rest else (k', v') :: aset rest k v

/-- JS member access `o.k` / `o[k]`: `undefined` (here `.null`) when the
receiver is not an object or lacks the key.  Also models optional chaining
`o?.k`, since access on `.null` yields `.null`. -/
def CJson.get (j : CJson) (k : String) : CJson :=
  match j with
  | .obj fields => (alookup fields k).getD .null
  | _ => .null

/-- The underlying string of a value statically typed `string` in the TS
sources (non-strings cannot occur there along the modelled paths). -/
def CJson.asStr : CJson → String
  | .str s => s
  | _ => ""

/-- The element list of a value statically typed as an array. -/
def CJson.asArr : CJson → List CJson
  | .arr xs => xs
  | _ => []

/-- The field list of a value statically typed as an object. -/
def CJson.asFields : CJson → List (String × CJson)
  | .obj fs => fs
  | _ => []

/-- `Object.keys(x).includes(k)`: key presence regardless of truthiness. -/
def CJson.hasKey (j : CJson) (k : String) : Bool :=
  match j with
  | .obj fs => fs.any (fun p => p.1 == k)
  | _ => false

/-- JS strict equality of a dynamic kind tag against a string literal, the
comparison a TS `switch (entry.fsType) { case 'X': ... }` performs. -/
def CJson.isStrTag (j : CJson) (k : String) : Bool :=
  match j with
  | .str s => s == k
  | _ => false

/-- JS object spread `{...a, ...b}`: keys of `a` in order, values overridden
by `b`, new keys of `b` appended. -/
def jsMergeA {α : Type} (a b : List (String × α)) : List (String × α) :=
  b.foldl (fun acc p => aset acc p.1 p.2) a

/-- Property write on a value: `x.k = v` is a no-op on non-objects here (the
TS sources only assign on objects). -/
def CJson.setField (j : CJson) (k : String) (v : CJson) : CJson :=
  match j with
  | .obj fs => .obj (aset fs k v)
  | other => other

/-- JS `String.prototype.indexOf` restricted to the single-character needles
the source uses: index of the first occurrence, `-1` if absent. -/
def jsIndexOf (s : String) (c : Char) : Int :=
  match s.data.findIdx? (fun d => d == c) with
  | some i => (i : Int)
  | none => -1

/-- JS `String.prototype.substring(a, b)`: negative bounds clamp to `0`,
bounds clamp to the length, and the bounds are swapped if out of order. -/
def jsSubstring (s : String) (a b : Int) : String :=
  let n := s.data.length
  let clamp : Int → Nat := fun x => min (max x 0).toNat n
  let lo := min (clamp a) (clamp b)
  let hi := max (clamp a) (clamp b)
  String.mk ((s.data.drop lo).take (hi - lo))

/-- JS `String.prototype.substring(0, b)` for a nonnegative bound. -/
def jsSubstringTo (s : String) (b : Nat) : String :=
  String.mk (s.data.take b)

/-- JS `a || b` on an optional string (empty string is falsy). -/
def jsOrS (o : Option String) (d : String) : String :=
  match o with
  | some s => if s = "" then d else s
  | none => d

/-- JS truthiness of an optional string parameter (absent or empty ⇒ falsy). -/
def jsTruthyOptStr (o : Option String) : Bool :=
  match o with
  | some s => s != ""
  | none => false

/-- JS `cjsonValue || optStringParam` where the result feeds an optional
string parameter (used for `entry.value.remoteProject || remoteProjectId`). -/
def jsOrOpt (a : CJson) (b : Option String) : Option String :=
  if a.truthy then some a.asStr else b

/-- JS `cjsonValue || optStringParam` kept as a JSON field value. -/
def jsOrCJ (a : CJson) (b : Option String) : CJson :=
  if a.truthy then a else match b with | some s => .str s | none => .null

/-- An optional string parameter stored into a JSON field
(`remoteProjectId` fields of mapped items). -/
def optToCJson : Option String → CJson
  | some s => .str s
  | none => .null

/-- JS template-literal stringification `${x}` for the value shapes that
reach it in the source. -/
def jsTemplateShow : CJson → String
  | .null => "undefined"
  | .bool b => cond b "true" "false"
  | .num n => toString n
  | .str s => s
  | .arr _ => ""
  | .obj _ => "[object Object]"

/-- `groupPath.split('/').pop()`: the last `/`-separated segment. -/
def jsSplitPop (j : CJson) : CJson :=
  match (j.asStr.splitOn "/").getLast? with
  | some x => .str x
  | none => .null

/-- `x.length === 0` for the values reachable at the `unmappedItems` length
check in `fetchByFilter` (arrays and strings have a length; any other truthy
value compares `undefined === 0`, i.e. `false`). -/
def jsLengthEq0 : CJson → Bool
  | .arr xs => xs.isEmpty
  | .str s => s.isEmpty
  | _ => false

/-- One segment of a `NestedPath` (string key or array index). -/
inductive PathSeg where
  | str (s : String) : PathSeg
  | idx (n : Nat) : PathSeg

/-- A path to a location inside a mapped item, as in `types.ts`. -/
abbrev NestedPath := List PathSeg

/-- `lodash.chunk`: split a list into consecutive groups of size `n`, the
last group possibly smaller; `[]` for `n = 0` as in lodash. -/
def chunkList {α : Type} (n : Nat) (xs : List α) : List (List α) :=
  match xs with
  | [] => []
  | x :: rest =>
      if _hn : n = 0 then []
      else (x :: rest).take n :: chunkList n ((x :: rest).drop n)
termination_by xs.length
decreasing_by
  simp only [List.length_drop, List.length_cons]
  omega

/-- `REFERENCED_ITEMS_CHUNK_SIZE` (CaaSMapper.ts line 65). -/
def REFERENCED_ITEMS_CHUNK_SIZE : Nat := 30

/-- `DEFAULT_MAX_REFERENCE_DEPTH` (CaaSMapper.ts line 66). -/
def DEFAULT_MAX_REFERENCE_DEPTH : Nat := 10

/-- One entry of `RemoteProjectConfiguration` (`api.remotes`): the remote
project key `id` and an optional remote locale. -/
structure RemoteProjectConfigurationEntry where
  id : String
  locale : Option String

/-- Warnings emitted through the (external) `Logger` collaborator; only the
warnings the claims talk about are tracked, as structured entries. -/
inductive LogMsg where
  | warnMaxDepth (maxDepth : Nat) : LogMsg
  | warnNoRemoteKey (identifier : String) (projectId : String) : LogMsg
  | warnUnmappableItem (index : Nat) (fsType : CJson) : LogMsg
  | warnNoId : LogMsg

/-- The immutable per-request context: the active locale, the configured
remote projects, the content mode, and the external collaborators
(XML parser, date-fns `parseISO`, custom mapper hook) as opaque functions. -/
structure Ctx where
  locale : String
  remotes : List RemoteProjectConfigurationEntry
  contentModePreview : Bool
  xmlParse : CJson → List CJson
  parseISODate : CJson → CJson
  customMapper : Option (CJson → NestedPath → Option CJson)

/-- The mutable state of a `CaaSMapper` instance: depth counter and bound,
resolved-reference cache, local reference registry, per-remote-project
registries, and the warning log. -/
structure MState where
  referenceDepth : Nat
  maxReferenceDepth : Nat
  resolvedReferences : List (String × CJson)
  referencedItems : List (String × List NestedPath)
  remoteReferences : List (String × List (String × List NestedPath))
  log : List LogMsg

/-- The `CaaSMapper` constructor: fresh registries, one empty bucket per
configured remote project, `referenceDepth` defaulting to 0 and
`maxReferenceDepth` defaulting to `DEFAULT_MAX_REFERENCE_DEPTH`. -/
def initMState (remotes : List RemoteProjectConfigurationEntry)
    (referenceDepth : Nat) (maxReferenceDepth : Nat) : MState :=
  { referenceDepth := referenceDepth
    maxReferenceDepth := maxReferenceDepth
    resolvedReferences := []
    referencedItems := []
    remoteReferences := remotes.map (fun e => (e.id, []))
    log := [] }

/-- Append one warning to the log. -/
def pushLog (st : MState) (m : LogMsg) : MState :=
  { st with log := st.log ++ [m] }

/-- One batched CaaS fetch issued by the resolution scheduler
(`api.fetchByFilter` with an `identifier IN ids` filter). -/
structure FetchCall where
  ids : List String
  locale : String
  pagesize : Nat
  remoteProject : Option String

/-- The result record of `mapFilterResponse`. -/
structure MapResponse where
  resolvedReferences : List (String × CJson)
  mappedItems : List CJson
  referenceMap : List (String × List NestedPath)

/-- Outcomes of the fallible mapping functions: a thrown JS `Error`, or fuel
exhaustion of the embedding (the source recursion is unbounded in theory). -/
inductive Err where
  | thrown (msg : String) : Err
  | outOfFuel : Err

/-- `unifyId` (CaaSMapper.ts lines 145-164): normalize `{id}` /
`{id}.{locale}` to `{id}.{locale}`, the remote locale overriding when set,
and prefix `{remoteProjectId}#` when a remote configuration is passed. -/
def unifyId (ctx : Ctx) (id : String)
    (remoteProjectConfiguration : Option RemoteProjectConfigurationEntry) :
    String :=
  let indexOfSeparator := jsIndexOf id '.'
  let remoteLocale := remoteProjectConfiguration.bind (fun c => c.locale)
  let idWithLocale :=
    if indexOfSeparator > 0 then
      if jsTruthyOptStr remoteLocale then
        jsSubstringTo id indexOfSeparator.toNat ++ "." ++ remoteLocale.getD ""
      else id
    else
      id ++ "." ++ jsOrS remoteLocale ctx.locale
  match remoteProjectConfiguration with
  | some cfg => cfg.id ++ "#" ++ idWithLocale
  | none => idWithLocale

/-- `getRemoteConfigForProject` (CaaSMapper.ts lines 1142-1150): look the
project id up among `Object.values(api.remotes)`. -/
def getRemoteConfigForProject (ctx : Ctx) (projectId : Option String) :
    Option RemoteProjectConfigurationEntry :=
  if jsTruthyOptStr projectId then
    ctx.remotes.find? (fun entry => entry.id == projectId.getD "")
  else none

/-- `registerReferencedItem` (CaaSMapper.ts lines 174-216): record `path`
for the unified id in the correct project bucket and return the placeholder
token. -/
def registerReferencedItem (ctx : Ctx) (st : MState) (identifier : String)
    (path : NestedPath) (remoteProjectId : Option String)
    (imageMapResolution : Option String) : MState × String :=
  let remoteData := getRemoteConfigForProject ctx remoteProjectId
  let remoteProjectKey := remoteData.map (fun c => c.id)
  let st1 :=
    if jsTruthyOptStr remoteProjectId && !jsTruthyOptStr remoteProjectKey then
      pushLog st (.warnNoRemoteKey identifier (remoteProjectId.getD ""))
    else st
  let unifiedId := unifyId ctx identifier remoteData
  if jsTruthyOptStr remoteProjectKey then
    let key := remoteProjectKey.getD ""
    let bucket := (alookup st1.remoteReferences key).getD []
    let st2 := { st1 with
      remoteReferences := aset st1.remoteReferences key
        (aset bucket unifiedId ((alookup bucket unifiedId).getD [] ++ [path])) }
    (st2,
      if jsTruthyOptStr imageMapResolution then
        "IMAGEMAP___" ++ imageMapResolution.getD "" ++ "___" ++ unifiedId
      else "[REFERENCED-REMOTE-ITEM-" ++ unifiedId ++ "]")
  else
    let st2 := { st1 with
      referencedItems := aset st1.referencedItems unifiedId
        ((alookup st1.referencedItems unifiedId).getD [] ++ [path]) }
    (st2,
      if jsTruthyOptStr imageMapResolution then
        "IMAGEMAP___" ++ imageMapResolution.getD "" ++ "___" ++ unifiedId
      else "[REFERENCED-ITEM-" ++ unifiedId ++ "]")

/-- `buildPreviewId` (CaaSMapper.ts lines 218-220). -/
def buildPreviewId (ctx : Ctx) (identifier : String)
    (remoteProjectLocale : Option String) : String :=
  identifier ++ "." ++ jsOrS remoteProjectLocale ctx.locale

/-- `buildMediaUrl` (CaaSMapper.ts lines 222-227): append `rev` in preview
content mode. -/
def buildMediaUrl (ctx : Ctx) (url : String) (rev : CJson) : String :=
  if rev.truthy && ctx.contentModePreview then
    url ++ (if url.contains '?' then "&" else "?") ++ "rev=" ++
      jsTemplateShow rev
  else url

/-- Modelled from the spec: `getItemId` lives in `modules/MappingUtils.ts`,
which is not among the provided sources.  Per spec §4.5 it computes the
entity's own canonical id `{uuid}.{locale}` — for a mapped item this is its
`previewId` (which for a Page is built from the reference id), for a raw
CaaS item its `identifier` plus its locale — prefixed `{remoteProjectId}#`
for a remote project. -/
def getItemId (item : CJson) (remoteProjectId : Option String) :
    Option String :=
  let pfx := match remoteProjectId with
    | some r => r ++ "#"
    | none => ""
  if (item.get "previewId").truthy then
    some (pfx ++ (item.get "previewId").asStr)
  else
    let identifier := item.get "identifier"
    let lang := (item.get "locale").get "language"
    let country := (item.get "locale").get "country"
    if identifier.truthy && lang.truthy && country.truthy then
      some (pfx ++ identifier.asStr ++ "." ++ lang.asStr ++ "_" ++
        country.asStr)
    else none

/-- `addToResolvedReferences` (CaaSMapper.ts lines 123-135): cache the item
under its own canonical id, warning when no id can be computed. -/
def addToResolvedReferences (st : MState) (item : CJson)
    (remoteProjectId : Option String) : MState :=
  match getItemId item remoteProjectId with
  | some id =>
      { st with resolvedReferences := aset st.resolvedReferences id item }
  | none => pushLog st .warnNoId

/-- Modelled from the spec: `findResolvedReferencesByIds` lives in
`modules/MappingUtils.ts`, which is not among the provided sources.  Per
spec §4.6 it looks up, by original-item id, the final cached version of
every top-level item; items whose id is absent from the cache (or undefined)
do not survive. -/
def findResolvedReferencesByIds (ids : List (Option String))
    (resolvedReferences : List (String × CJson)) : List CJson :=
  ids.filterMap (fun oid => oid.bind (alookup resolvedReferences))

/-- Sequential linearization of `Promise.all(xs.map((x, i) => f(st, i, x)))`
with the mapper state threaded left to right (registry/cache writes commute
per spec §5; the source runs the branches concurrently). -/
def stMapIdx (f : MState → Nat → CJson → Except Err (MState × CJson)) :
    MState → Nat → List CJson → Except Err (MState × List CJson)
  | st, _, [] => .ok (st, [])
  | st, i, x :: xs => do
      let (st1, y) ← f st i x
      let (st2, ys) ← stMapIdx f st1 (i + 1) xs
      .ok (st2, y :: ys)

/-- State-threaded mapping over the fields of an object, keys preserved in
order (the `keys.reduce` reassembly of `mapDataEntries`). -/
def stMapFields (f : MState → String → CJson → Except Err (MState × CJson)) :
    MState → List (String × CJson) →
    Except Err (MState × List (String × CJson))
  | st, [] => .ok (st, [])
  | st, (k, v) :: rest => do
      let (st1, v') ← f st k v
      let (st2, rest') ← stMapFields f st1 rest
      .ok (st2, (k, v') :: rest')

/-- `_mapPermissionGroup` (CaaSMapper.ts lines 503-509). -/
def mapPermissionGroup (group : CJson) : CJson :=
  .obj [("groupId", jsSplitPop (group.get "groupPath")),
    ("groupName", group.get "groupName"),
    ("groupPath", group.get "groupPath")]

/-- `ImageMapAreaType` values; the `enums` module is not among the provided
sources, the spellings follow the area kinds named in the spec (§4.2 image
maps) and the TS type names `ImageMapAreaRect`/`Circle`/`Poly`. -/
def areaTypeRect : String := "RECT"

/-- `ImageMapAreaType.CIRCLE` (see `areaTypeRect`). -/
def areaTypeCircle : String := "CIRCLE"

/-- `ImageMapAreaType.POLY` (see `areaTypeRect`). -/
def areaTypePoly : String := "POLY"

mutual

/-- `mapDataEntry` (CaaSMapper.ts lines 229-466): the custom-mapper hook
first, then the built-in dispatch on `entry.fsType`, unknown kinds passing
through unchanged. -/
def mapDataEntry : Nat → Ctx → MState → CJson → NestedPath →
    Option String → Option String → Except Err (MState × CJson)
  | 0, _, _, _, _, _, _ => .error .outOfFuel
  | Nat.succ fuel, ctx, st, entry, path, rl, rid =>
    let builtin := fun (_ : Unit) =>
      let fsTag := entry.get "fsType"
      if fsTag.isStrTag "CMS_INPUT_COMBOBOX" then
          let v := entry.get "value"
          .ok (st,
            if v.truthy then
              .obj [("type", .str "Option"), ("key", v.get "identifier"),
                ("value", v.get "label")]
            else .null)
      else if fsTag.isStrTag "CMS_INPUT_DOM" || fsTag.isStrTag "CMS_INPUT_DOMTABLE" then do
          let elements :=
            if (entry.get "value").truthy then ctx.xmlParse (entry.get "value")
            else []
          let (st1, mapped) ←
            mapLinksInRichTextElements fuel ctx st elements path rl rid
          .ok (st1, .arr mapped)
      else if fsTag.isStrTag "CMS_INPUT_NUMBER" || fsTag.isStrTag "CMS_INPUT_TEXT"
          || fsTag.isStrTag "CMS_INPUT_TEXTAREA" then .ok (st, entry.get "value")
      else if fsTag.isStrTag "CMS_INPUT_RADIOBUTTON" then
          let v := entry.get "value"
          .ok (st,
            if v.truthy then
              .obj (jsMergeA
                [("type", .str "Option"), ("key", v.get "identifier"),
                 ("value", v.get "label")]
                v.asFields)
            else .null)
      else if fsTag.isStrTag "CMS_INPUT_DATE" then
          let v := entry.get "value"
          .ok (st, if v.truthy then ctx.parseISODate v else .null)
      else if fsTag.isStrTag "CMS_INPUT_LINK" then
          let v := entry.get "value"
          if v.truthy then do
            let (st1, d) ← mapDataEntries fuel ctx st (v.get "formData")
              (path ++ [.str "data"]) rl rid
            let (st2, m) ← mapDataEntries fuel ctx st1 (v.get "metaFormData")
              (path ++ [.str "meta"]) rl rid
            .ok (st2, .obj [("type", .str "Link"),
              ("template", (v.get "template").get "uid"),
              ("data", d), ("meta", m)])
          else .ok (st, .null)
      else if fsTag.isStrTag "CMS_INPUT_LIST" then
          let v := entry.get "value"
          if !v.truthy then .ok (st, .arr [])
          else do
            let (st1, xs) ← stMapIdx
              (fun st i childEntry =>
                mapDataEntry fuel ctx st childEntry (path ++ [.idx i]) rl rid)
              st 0 v.asArr
            .ok (st1, .arr xs)
      else if fsTag.isStrTag "CMS_INPUT_CHECKBOX" then
          let v := entry.get "value"
          if !v.truthy then .ok (st, .arr [])
          else do
            let (st1, xs) ← stMapIdx
              (fun st i childEntry =>
                mapDataEntry fuel ctx st childEntry (path ++ [.idx i]) rl rid)
              st 0 v.asArr
            .ok (st1, .arr xs)
      else if fsTag.isStrTag "CMS_INPUT_IMAGEMAP" then
          if !entry.truthy || !(entry.get "value").truthy then .ok (st, .null)
          else mapImageMap fuel ctx st entry path rl rid
      else if fsTag.isStrTag "FS_DATASET" then
          let v := entry.get "value"
          if !v.truthy then .ok (st, .null)
          else
            match v with
            | .arr xs => do
                let (st1, ys) ← stMapIdx
                  (fun st i childEntry =>
                    mapDataEntry fuel ctx st childEntry (path ++ [.idx i])
                      rl rid)
                  st 0 xs
                .ok (st1, .arr ys)
            | _ =>
                match v.get "fsType" with
                | .str "DatasetReference" =>
                    let r := registerReferencedItem ctx st
                      ((v.get "target").get "identifier").asStr path rid none
                    .ok (r.1, .str r.2)
                | _ => .ok (st, .null)
      else if fsTag.isStrTag "CMS_INPUT_TOGGLE" then
          .ok (st,
            if (entry.get "value").truthy then entry.get "value"
            else .bool false)
      else if fsTag.isStrTag "FS_CATALOG" then do
          let (st1, cards) ← stMapIdx
            (fun st i card =>
              match (card.get "template").get "fsType" with
              | .str "SectionTemplate" | .str "LinkTemplate" =>
                  mapSection fuel ctx st
                    (.obj (jsMergeA card.asFields
                      [("fsType", .str "Section"),
                       ("name", (card.get "template").get "name"),
                       ("displayName",
                         (card.get "template").get "displayName")]))
                    (path ++ [.idx i]) rl rid
              | .str "PageTemplate" => do
                  let (st1, d) ← mapDataEntries fuel ctx st
                    (card.get "formData") (path ++ [.idx i, .str "data"])
                    rl rid
                  .ok (st1, .obj [("id", card.get "identifier"),
                    ("previewId", .str (buildPreviewId ctx
                      (card.get "identifier").asStr rl)),
                    ("template", (card.get "template").get "uid"),
                    ("data", d)])
              | _ => .ok (st, card))
            st 0
            ((if (entry.get "value").truthy then entry.get "value"
              else .arr []).asArr)
          .ok (st1, .arr cards)
      else if fsTag.isStrTag "FS_REFERENCE" then
          let v := entry.get "value"
          if !v.truthy then .ok (st, .null)
          else
            match v.get "fsType" with
            | .str "Media" =>
                let r := registerReferencedItem ctx st
                  (v.get "identifier").asStr path
                  (jsOrOpt (v.get "remoteProject") rid) none
                .ok (r.1, .str r.2)
            | .str "PageRef" | .str "GCAPage" =>
                let reference :=
                  [("type", .str "Reference"),
                   ("referenceId", v.get "identifier"),
                   ("referenceRemoteProject",
                     jsOrCJ (v.get "remoteProject") rid),
                   ("referenceType", v.get "fsType")]
                .ok (st, .obj
                  (if v.hasKey "section" then
                    jsMergeA reference [("section", v.get "section")]
                  else reference))
            | _ => .ok (st, entry)
      else if fsTag.isStrTag "FS_INDEX" then
          match entry.get "dapType" with
          | .str "DatasetDataAccessPlugin" => do
              let (st1, recs) ← stMapIdx
                (fun st i record =>
                  let identifier :=
                    ((record.get "value").get "target").get "identifier"
                  if !identifier.truthy then .ok (st, .null)
                  else
                    let r := registerReferencedItem ctx st identifier.asStr
                      (path ++ [.idx i]) rid none
                    .ok (r.1, .str r.2))
                st 0 (entry.get "value").asArr
              .ok (st1, .arr (recs.filter (fun r => r.truthy)))
          | _ => .ok (st, entry)
      else if fsTag.isStrTag "Option" then
          .ok (st, .obj [("type", .str "Option"),
            ("key", entry.get "identifier"), ("value", entry.get "label")])
      else if fsTag.isStrTag "CMS_INPUT_PERMISSION" then
          .ok (st, .obj [("type", .str "Permission"),
            ("fsType", entry.get "fsType"), ("name", entry.get "name"),
            ("value", .arr ((entry.get "value").asArr.map (fun activity =>
              .obj [("allowed", .arr
                  ((activity.get "allowed").asArr.map mapPermissionGroup)),
                ("forbidden", .arr
                  ((activity.get "forbidden").asArr.map
                    mapPermissionGroup))])))])
      else .ok (st, entry)
    match ctx.customMapper with
    | some cm =>
        match cm entry path with
        | some result => .ok (st, result)
        | none => builtin ()
    | none => builtin ()

/-- `mapLinksInRichTextElements` (CaaSMapper.ts lines 468-501), as a pure
transform: rewrite each `link` node's `data` to a mapped Link and recurse
into `content`. -/
def mapLinksInRichTextElements : Nat → Ctx → MState → List CJson →
    NestedPath → Option String → Option String →
    Except Err (MState × List CJson)
  | 0, _, _, _, _, _, _ => .error .outOfFuel
  | Nat.succ fuel, ctx, st, richTextElements, path, rl, rid =>
      stMapIdx
        (fun st i el => do
          let (st1, el1) ←
            match el.get "type" with
            | .str "link" => do
                let (st', d) ← mapDataEntries fuel ctx st
                  ((el.get "data").get "data")
                  (path ++ [.idx i, .str "data", .str "data"]) rl rid
                pure (st', el.setField "data"
                  (.obj [("type", .str "Link"),
                    ("template", (el.get "data").get "type"),
                    ("data", d), ("meta", .obj [])]))
            | _ => pure (st, el)
          match el1.get "content" with
          | .arr xs => do
              let (st2, ys) ← mapLinksInRichTextElements fuel ctx st1 xs
                (path ++ [.idx i, .str "content"]) rl rid
              .ok (st2, el1.setField "content" (.arr ys))
          | _ => .ok (st1, el1))
        st 0 richTextElements

/-- `mapDataEntries` (CaaSMapper.ts lines 511-535): map every field of a
form-data object, preserving key order. -/
def mapDataEntries : Nat → Ctx → MState → CJson → NestedPath →
    Option String → Option String → Except Err (MState × CJson)
  | 0, _, _, _, _, _, _ => .error .outOfFuel
  | Nat.succ fuel, ctx, st, entries, path, rl, rid => do
      let (st1, fields) ← stMapFields
        (fun st key value =>
          mapDataEntry fuel ctx st value (path ++ [.str key]) rl rid)
        st entries.asFields
      .ok (st1, .obj fields)

/-- `mapSection` (CaaSMapper.ts lines 537-557). -/
def mapSection : Nat → Ctx → MState → CJson → NestedPath →
    Option String → Option String → Except Err (MState × CJson)
  | 0, _, _, _, _, _, _ => .error .outOfFuel
  | Nat.succ fuel, ctx, st, sectionNode, path, rl, rid => do
      let (st1, d) ← mapDataEntries fuel ctx st (sectionNode.get "formData")
        (path ++ [.str "data"]) rl rid
      .ok (st1, .obj [
        ("id", sectionNode.get "identifier"),
        ("type", .str "Section"),
        ("sectionType", (sectionNode.get "template").get "uid"),
        ("previewId",
          .str (buildPreviewId ctx (sectionNode.get "identifier").asStr rl)),
        ("data", d),
        ("displayed", sectionNode.get "displayed"),
        ("children", .arr [])])

/-- `mapImageMapArea` (CaaSMapper.ts lines 714-753): the area's link data is
mapped, then the geometry is copied per area type, unknown types map to
`null`. -/
def mapImageMapArea : Nat → Ctx → MState → CJson → NestedPath →
    Option String → Option String → Except Err (MState × CJson)
  | 0, _, _, _, _, _, _ => .error .outOfFuel
  | Nat.succ fuel, ctx, st, area, path, rl, rid => do
      let link := area.get "link"
      let (st1, linkVal) ←
        if link.truthy then do
          let (st', d) ← mapDataEntries fuel ctx st (link.get "formData")
            (path ++ [.str "link", .str "data"]) rl rid
          pure (st', CJson.obj [("template", (link.get "template").get "uid"),
            ("data", d)])
        else pure (st, link)
      let base := [("areaType", area.get "areaType"), ("link", linkVal)]
      match area.get "areaType" with
      | .str s =>
          if s = areaTypeRect then
            .ok (st1, .obj (jsMergeA base
              [("leftTop", area.get "leftTop"),
               ("rightBottom", area.get "rightBottom")]))
          else if s = areaTypeCircle then
            .ok (st1, .obj (jsMergeA base
              [("center", area.get "center"), ("radius", area.get "radius")]))
          else if s = areaTypePoly then
            .ok (st1, .obj (jsMergeA base [("points", area.get "points")]))
          else .ok (st1, .null)
      | _ => .ok (st1, .null)

/-- `mapImageMap` (CaaSMapper.ts lines 755-796): throws when the value
payload is missing; otherwise maps the areas and registers the media
reference with the resolution-specific image-map token. -/
def mapImageMap : Nat → Ctx → MState → CJson → NestedPath →
    Option String → Option String → Except Err (MState × CJson)
  | 0, _, _, _, _, _, _ => .error .outOfFuel
  | Nat.succ fuel, ctx, st, imageMap, path, rl, rid =>
      if !(imageMap.get "value").truthy then
        .error (.thrown "ImageMap value is null")
      else do
        let value := imageMap.get "value"
        let media := value.get "media"
        let (st1, mappedAreas) ← stMapIdx
          (fun st i area =>
            mapImageMapArea fuel ctx st area
              (path ++ [.str "areas", .idx i]) rl rid)
          st 0 (value.get "areas").asArr
        let (st2, image) :=
          if media.truthy then
            let r := registerReferencedItem ctx st1 (media.get "identifier").asStr
              (path ++ [.str "media"]) (jsOrOpt (media.get "remoteProject") rid)
              (some ((value.get "resolution").get "uid").asStr)
            (r.1, CJson.str r.2)
          else (st1, CJson.null)
        .ok (st2, .obj [("type", .str "ImageMap"),
          ("areas", .arr (mappedAreas.filter (fun a => a.truthy))),
          ("media", image)])

end

/-- `mapContent2Section` (CaaSMapper.ts lines 559-582); pure, no state. -/
def mapContent2Section (ctx : Ctx) (content2Section : CJson)
    (remoteProjectLocale : Option String) : CJson :=
  .obj [
    ("id", content2Section.get "identifier"),
    ("previewId", .str (buildPreviewId ctx
      (content2Section.get "identifier").asStr remoteProjectLocale)),
    ("type", .str "Section"),
    ("data", .obj [
      ("entityType", content2Section.get "entityType"),
      ("filterParams", content2Section.get "filterParams"),
      ("maxPageCount", content2Section.get "maxPageCount"),
      ("ordering", content2Section.get "ordering"),
      ("query", content2Section.get "query"),
      ("recordCountPerPage", content2Section.get "recordCountPerPage"),
      ("schema", content2Section.get "schema")]),
    ("sectionType", (content2Section.get "template").get "uid"),
    ("children", .arr [])]

/-- `CaaSMapperErrors.UNKNOWN_BODY_CONTENT` (CaaSMapper.ts line 61). -/
def UNKNOWN_BODY_CONTENT : String := "Unknown BodyContent could not be mapped."

/-- `CaaSMapperErrors.UNKNOWN_FSTYPE` (CaaSMapper.ts line 62). -/
def UNKNOWN_FSTYPE : String := "Unknown fsType could not be mapped"

/-- `mapBodyContent` (CaaSMapper.ts lines 584-611): dispatch on the section
kind, throwing `UNKNOWN_BODY_CONTENT` with the offending fsType for any
other kind. -/
def mapBodyContent (fuel : Nat) (ctx : Ctx) (st : MState) (content : CJson)
    (path : NestedPath) (rl rid : Option String) :
    Except Err (MState × CJson) :=
  let fsTag := content.get "fsType"
  if fsTag.isStrTag "Content2Section" then
    .ok (st, mapContent2Section ctx content rl)
  else if fsTag.isStrTag "Section" || fsTag.isStrTag "SectionReference" ||
      fsTag.isStrTag "GCASection" then
    mapSection fuel ctx st content path rl rid
  else
    .error (.thrown (UNKNOWN_BODY_CONTENT ++ " fsType=[" ++
      jsTemplateShow fsTag ++ "]"))

/-- `mapPageBody` (CaaSMapper.ts lines 613-634). -/
def mapPageBody (fuel : Nat) (ctx : Ctx) (st : MState) (body : CJson)
    (path : NestedPath) (rl rid : Option String) :
    Except Err (MState × CJson) := do
  let (st1, children) ← stMapIdx
    (fun st i child =>
      mapBodyContent fuel ctx st child (path ++ [.str "children", .idx i])
        rl rid)
    st 0 (body.get "children").asArr
  .ok (st1, .obj [
    ("type", .str "PageBody"),
    ("name", body.get "name"),
    ("previewId",
      .str (buildPreviewId ctx (body.get "identifier").asStr rl)),
    ("children", .arr children)])

/-- `mapPageRef` (CaaSMapper.ts lines 636-681). -/
def mapPageRef (fuel : Nat) (ctx : Ctx) (st : MState) (pageRef : CJson)
    (path : NestedPath) (rl rid : Option String) :
    Except Err (MState × CJson) := do
  let page := pageRef.get "page"
  let (st1, children) ← stMapIdx
    (fun st i child =>
      mapPageBody fuel ctx st child (path ++ [.str "children", .idx i])
        rl rid)
    st 0 (page.get "children").asArr
  let (st2, d) ← mapDataEntries fuel ctx st1 (page.get "formData")
    (path ++ [.str "data"]) rl rid
  let (st3, m) ← mapDataEntries fuel ctx st2 (page.get "metaFormData")
    (path ++ [.str "meta"]) rl rid
  let base := [
    ("type", CJson.str "Page"),
    ("id", page.get "identifier"),
    ("refId", pageRef.get "identifier"),
    ("previewId",
      CJson.str (buildPreviewId ctx (pageRef.get "identifier").asStr rl)),
    ("name", page.get "name"),
    ("layout", (page.get "template").get "uid"),
    ("children", CJson.arr children),
    ("data", d),
    ("meta", m)]
  if (pageRef.get "metaFormData").truthy then do
    let (st4, mp) ← mapDataEntries fuel ctx st3 (pageRef.get "metaFormData")
      (path ++ [.str "metaPageRef"]) rl rid
    .ok (st4, .obj (base ++ [("metaPageRef", mp),
      ("remoteProjectId", optToCJson rid)]))
  else
    .ok (st3, .obj (base ++ [("remoteProjectId", optToCJson rid)]))

/-- `mapProjectProperties` (CaaSMapper.ts lines 683-712). -/
def mapProjectProperties (fuel : Nat) (ctx : Ctx) (st : MState)
    (properties : CJson) (path : NestedPath) (rl rid : Option String) :
    Except Err (MState × CJson) := do
  let (st1, d) ← mapDataEntries fuel ctx st (properties.get "formData")
    (path ++ [.str "data"]) rl rid
  let (st2, m) ← mapDataEntries fuel ctx st1 (properties.get "metaFormData")
    (path ++ [.str "meta"]) rl rid
  .ok (st2, .obj [
    ("type", .str "ProjectProperties"),
    ("data", d),
    ("layout", (properties.get "template").get "uid"),
    ("meta", m),
    ("name", properties.get "name"),
    ("previewId",
      .str (buildPreviewId ctx (properties.get "identifier").asStr rl)),
    ("id", properties.get "identifier"),
    ("remoteProjectId", optToCJson rid)])

/-- `mapGCAPage` (CaaSMapper.ts lines 798-834). -/
def mapGCAPage (fuel : Nat) (ctx : Ctx) (st : MState) (gcaPage : CJson)
    (path : NestedPath) (rl rid : Option String) :
    Except Err (MState × CJson) := do
  let (st1, children) ← stMapIdx
    (fun st i child =>
      mapPageBody fuel ctx st child (path ++ [.str "children", .idx i])
        rl rid)
    st 0 (gcaPage.get "children").asArr
  let (st2, d) ← mapDataEntries fuel ctx st1 (gcaPage.get "formData")
    (path ++ [.str "data"]) rl rid
  let (st3, m) ← mapDataEntries fuel ctx st2 (gcaPage.get "metaFormData")
    (path ++ [.str "meta"]) rl rid
  .ok (st3, .obj [
    ("type", .str "GCAPage"),
    ("id", gcaPage.get "identifier"),
    ("previewId",
      .str (buildPreviewId ctx (gcaPage.get "identifier").asStr rl)),
    ("name", gcaPage.get "name"),
    ("layout", (gcaPage.get "template").get "uid"),
    ("children", .arr children),
    ("data", d),
    ("meta", m),
    ("remoteProjectId", optToCJson rid)])

/-- `mapDataset` (CaaSMapper.ts lines 836-861). -/
def mapDataset (fuel : Nat) (ctx : Ctx) (st : MState) (dataset : CJson)
    (path : NestedPath) (rl rid : Option String) :
    Except Err (MState × CJson) := do
  let (st1, d) ← mapDataEntries fuel ctx st (dataset.get "formData")
    (path ++ [.str "data"]) rl rid
  .ok (st1, .obj [
    ("type", .str "Dataset"),
    ("id", dataset.get "identifier"),
    ("previewId",
      .str (buildPreviewId ctx (dataset.get "identifier").asStr rl)),
    ("schema", dataset.get "schema"),
    ("entityType", dataset.get "entityType"),
    ("data", d),
    ("route", dataset.get "route"),
    ("routes", dataset.get "routes"),
    ("template", (dataset.get "template").get "uid"),
    ("children", .arr []),
    ("remoteProjectId", optToCJson rid),
    ("locale", .str (((dataset.get "locale").get "language").asStr ++ "_" ++
      ((dataset.get "locale").get "country").asStr))])

/-- `mapMediaPictureResolutionUrls` (CaaSMapper.ts lines 888-899). -/
def mapMediaPictureResolutionUrls (ctx : Ctx) (resolutions : CJson)
    (rev : CJson) : CJson :=
  match resolutions with
  | .obj fs => .obj (fs.map (fun p =>
      (p.1, p.2.setField "url"
        (.str (buildMediaUrl ctx (p.2.get "url").asStr rev)))))
  | other => other

/-- `mapMediaPicture` (CaaSMapper.ts lines 863-886). -/
def mapMediaPicture (fuel : Nat) (ctx : Ctx) (st : MState) (item : CJson)
    (path : NestedPath) (rl rid : Option String) :
    Except Err (MState × CJson) := do
  let (st1, m) ← mapDataEntries fuel ctx st (item.get "metaFormData")
    (path ++ [.str "meta"]) rl rid
  .ok (st1, .obj [
    ("type", .str "Image"),
    ("id", item.get "identifier"),
    ("previewId",
      .str (buildPreviewId ctx (item.get "identifier").asStr rl)),
    ("meta", m),
    ("description", item.get "description"),
    ("resolutions", mapMediaPictureResolutionUrls ctx
      (item.get "resolutionsMetaData") ((item.get "changeInfo").get "revision")),
    ("remoteProjectId", optToCJson rid)])

/-- `mapMediaFile` (CaaSMapper.ts lines 901-922). -/
def mapMediaFile (fuel : Nat) (ctx : Ctx) (st : MState) (item : CJson)
    (path : NestedPath) (rl rid : Option String) :
    Except Err (MState × CJson) := do
  let (st1, m) ← mapDataEntries fuel ctx st (item.get "metaFormData")
    (path ++ [.str "meta"]) rl rid
  .ok (st1, .obj [
    ("type", .str "File"),
    ("id", item.get "identifier"),
    ("previewId",
      .str (buildPreviewId ctx (item.get "identifier").asStr rl)),
    ("meta", m),
    ("fileName", item.get "fileName"),
    ("fileMetaData", item.get "fileMetaData"),
    ("url", item.get "url"),
    ("remoteProjectId", optToCJson rid)])

/-- `mapMedia` (CaaSMapper.ts lines 924-951): `null` maps to `null`,
pictures and files are mapped, other media kinds pass through. -/
def mapMedia (fuel : Nat) (ctx : Ctx) (st : MState) (item : CJson)
    (path : NestedPath) (rl rid : Option String) :
    Except Err (MState × CJson) :=
  match item with
  | .null => .ok (st, .null)
  | _ =>
      match item.get "mediaType" with
      | .str "PICTURE" => mapMediaPicture fuel ctx st item path rl rid
      | .str "FILE" => mapMediaFile fuel ctx st item path rl rid
      | _ => .ok (st, item)

/-- The registry bucket consulted by `resolveReferencesPerProject`
(CaaSMapper.ts lines 1082-1084): the remote project's registry when a
truthy remote project id is given, else the local registry (a configured
remote project always has a bucket, installed by the constructor). -/
def registryBucket (st : MState) (remoteProjectId : Option String) :
    List (String × List NestedPath) :=
  if jsTruthyOptStr remoteProjectId then
    (alookup st.remoteReferences (remoteProjectId.getD "")).getD []
  else st.referencedItems

/-- The raw store-level id sent to the CaaS fetch (CaaSMapper.ts line 1098):
`id.substring(id.indexOf('#') + 1, id.indexOf('.'))`. -/
def stripStoreId (id : String) : String :=
  jsSubstring id (jsIndexOf id '#' + 1) (jsIndexOf id '.')

/-- `idsToFetchFromCaaS` (CaaSMapper.ts lines 1091-1098): registry keys not
yet in the resolved-reference cache, stripped back to raw store ids. -/
def idsToFetchFromCaaS (st : MState) (remoteProjectId : Option String) :
    List String :=
  let referencedIds := (registryBucket st remoteProjectId).map Prod.fst
  let resolvedIds := st.resolvedReferences.map Prod.fst
  (referencedIds.filter (fun id => !resolvedIds.contains id)).map stripStoreId

/-- `resolveReferencesPerProject` (CaaSMapper.ts lines 1075-1140): compute
the unresolved ids, chunk them, and issue one `fetchByFilter` call per
chunk (emitted here as `FetchCall` values — the fetch is the external
collaborator). -/
def resolveReferencesPerProject (ctx : Ctx) (st : MState)
    (remoteProjectId : Option String) : List FetchCall :=
  let remoteProjectData := getRemoteConfigForProject ctx remoteProjectId
  let remoteProjectLocale := remoteProjectData.bind (fun c => c.locale)
  let locale := jsOrS remoteProjectLocale ctx.locale
  let ids := idsToFetchFromCaaS st remoteProjectId
  let idChunks := chunkList REFERENCED_ITEMS_CHUNK_SIZE ids
  if ids.length > 0 then
    idChunks.map (fun chunkIds =>
      { ids := chunkIds
        locale := jsOrS remoteProjectLocale locale
        pagesize := REFERENCED_ITEMS_CHUNK_SIZE
        remoteProject := remoteProjectId })
  else []

/-- `resolveAllReferences` (CaaSMapper.ts lines 1050-1068): when the depth
counter has reached the configured maximum, warn and do nothing; otherwise
increment the counter and run one fetch round for the local project and
every remote project.  The fetch calls are emitted, not executed (their
responses re-enter through the external `fetchByFilter` collaborator). -/
def resolveAllReferences (ctx : Ctx) (st : MState) : MState × List FetchCall :=
  if st.referenceDepth ≥ st.maxReferenceDepth then
    (pushLog st (.warnMaxDepth st.maxReferenceDepth), [])
  else
    let st1 := { st with referenceDepth := st.referenceDepth + 1 }
    let remoteIds := st1.remoteReferences.map Prod.fst
    (st1,
      resolveReferencesPerProject ctx st1 none ++
        (remoteIds.flatMap (fun remoteId =>
          resolveReferencesPerProject ctx st1 (some remoteId))))

/-- The per-item dispatch of `mapFilterResponse` (CaaSMapper.ts lines
964-1007): map the five known top-level kinds, log and pass through
anything else unmapped. -/
def mapTopLevelItem (fuel : Nat) (ctx : Ctx) (st : MState)
    (unmappedItem : CJson) (index : Nat) (rl rid : Option String) :
    Except Err (MState × CJson) :=
  let path : NestedPath := [.str ((getItemId unmappedItem rid).getD "")]
  let fsTag := unmappedItem.get "fsType"
  if fsTag.isStrTag "Dataset" then
    mapDataset fuel ctx st unmappedItem path rl rid
  else if fsTag.isStrTag "PageRef" then
    mapPageRef fuel ctx st unmappedItem path rl rid
  else if fsTag.isStrTag "Media" then
    mapMedia fuel ctx st unmappedItem path rl rid
  else if fsTag.isStrTag "GCAPage" then
    mapGCAPage fuel ctx st unmappedItem path rl rid
  else if fsTag.isStrTag "ProjectProperties" then
    mapProjectProperties fuel ctx st unmappedItem path rl rid
  else
    .ok (pushLog st (.warnUnmappableItem index fsTag), unmappedItem)

/-- `Object.values(this._remoteReferences).reduce(Object.assign)` merged
with the local registry (CaaSMapper.ts lines 1027-1039). -/
def mergedReferenceMap (st : MState) : List (String × List NestedPath) :=
  let remoteReferencesValues := st.remoteReferences.map Prod.snd
  let remoteReferencesMerged :=
    match remoteReferencesValues with
    | [] => []
    | x :: xs => xs.foldl jsMergeA x
  jsMergeA st.referencedItems remoteReferencesMerged

/-- `mapFilterResponse` (CaaSMapper.ts lines 953-1042): map the top-level
items (or keep them raw when `additionalParams.keys` is set), seed the
resolved-reference cache, run one reference-resolution step, reassemble the
final items from the cache, and merge the registries for output.  The
emitted fetch calls of the resolution step are returned alongside. -/
def mapFilterResponse (fuel : Nat) (ctx : Ctx) (st : MState)
    (unmappedItems : List CJson) (additionalParamsKeys : Bool)
    (rl rid : Option String) :
    Except Err (MState × MapResponse × List FetchCall) := do
  let (st1, items) ←
    if additionalParamsKeys then pure (st, unmappedItems)
    else do
      let (st1, mapped) ← stMapIdx
        (fun st i unmappedItem =>
          mapTopLevelItem fuel ctx st unmappedItem i rl rid)
        st 0 unmappedItems
      pure (st1, mapped.filter (fun item => item.truthy))
  let st2 := items.foldl
    (fun s item =>
      if item.truthy then addToResolvedReferences s item rid else s)
    st1
  let (st3, fetchCalls) :=
    if items.length > 0 then resolveAllReferences ctx st2 else (st2, [])
  let mappedItems := findResolvedReferencesByIds
    (items.map (fun item => getItemId item none)) st3.resolvedReferences
  .ok (st3,
    { mappedItems := mappedItems
      referenceMap := mergedReferenceMap st3
      resolvedReferences := st3.resolvedReferences },
    fetchCalls)

/-- The shape of the `FetchResponse` record returned by `fetchByFilter`
(`totalPages` and `size` are raw header fields, `undefined` when absent). -/
structure FetchResp where
  page : Int
  pagesize : Int
  totalPages : CJson
  size : CJson
  items : List CJson

/-- The response-processing tail of `fetchByFilter` (FSXARemoteApi.ts lines
503-639) after the HTTP round-trip: validate `page`/`pagesize`, extract
`data._embedded['rh:doc']`, return the fixed empty response early when no
documents came back, and otherwise map the items through the given
mapping-and-resolution pipeline (mapper construction, `mapFilterResponse`,
item filtering and denormalization — `mapAndResolve` abstracts that tail,
which is exercised only in the non-empty branch). -/
def fetchByFilterProcess (page0 pagesize0 : Int) (data : CJson)
    (mapAndResolve : List CJson → Except Err (List CJson)) :
    Except Err FetchResp :=
  let pagesize := if pagesize0 < 1 then 30 else pagesize0
  let page := if page0 < 1 then 1 else page0
  let embedded := data.get "_embedded"
  let unmappedItems : CJson :=
    if !embedded.truthy || !(embedded.get "rh:doc").truthy then .arr []
    else embedded.get "rh:doc"
  if jsLengthEq0 unmappedItems then
    .ok { page := 1, pagesize := 30, size := CJson.null,
          totalPages := CJson.null, items := [] }
  else do
    let items ← mapAndResolve unmappedItems.asArr
    .ok { page := page, pagesize := pagesize,
          totalPages := data.get "_total_pages", size := data.get "_size",
          items := items }

/-- The `fsType` tags with a dedicated case in `mapDataEntry`'s switch
(CaaSMapper.ts lines 246-462); everything else falls to the default
pass-through branch. -/
def recognizedDataEntryKinds : List String :=
  ["CMS_INPUT_COMBOBOX", "CMS_INPUT_DOM", "CMS_INPUT_DOMTABLE",
   "CMS_INPUT_NUMBER", "CMS_INPUT_TEXT", "CMS_INPUT_TEXTAREA",
   "CMS_INPUT_RADIOBUTTON", "CMS_INPUT_DATE", "CMS_INPUT_LINK",
   "CMS_INPUT_LIST", "CMS_INPUT_CHECKBOX", "CMS_INPUT_IMAGEMAP",
   "FS_DATASET", "CMS_INPUT_TOGGLE", "FS_CATALOG", "FS_REFERENCE",
   "FS_INDEX", "Option", "CMS_INPUT_PERMISSION"]

/-- Whether a kind tag hits one of the switch cases (see
`recognizedDataEntryKinds`). -/
def recognizedDataEntryKind (tag : CJson) : Bool :=
  recognizedDataEntryKinds.any (fun k => tag.isStrTag k)

/-- A concrete context without remote projects, for witnesses. -/
def ctxFix : Ctx :=
  { locale := "en_GB", remotes := [], contentModePreview := false,
    xmlParse := fun _ => [], parseISODate := fun v => v,
    customMapper := none }

/-- A concrete context with one configured remote project `media`. -/
def ctxFixR : Ctx :=
  { ctxFix with remotes := [{ id := "media", locale := some "en_GB" }] }

/-- A fresh mapper state as built by the constructor, for witnesses. -/
def stFix : MState := initMState [] 0 DEFAULT_MAX_REFERENCE_DEPTH

/-- A fresh mapper state with the `media` remote bucket installed. -/
def stFixR : MState :=
  initMState [{ id := "media", locale := some "en_GB" }] 0
    DEFAULT_MAX_REFERENCE_DEPTH

/-- The `fsType` tags with a dedicated case in `mapFilterResponse`'s
top-level switch (CaaSMapper.ts lines 965-1000). -/
def recognizedTopLevelKinds : List String :=
  ["Dataset", "PageRef", "Media", "GCAPage", "ProjectProperties"]

/-- Whether a top-level kind tag hits one of the five mapped kinds. -/
def recognizedTopLevelKind (tag : CJson) : Bool :=
  recognizedTopLevelKinds.any (fun k => tag.isStrTag k)

/-- The canonical id `{identifier}.{language}_{country}` of a raw CaaS item
(no remote prefix), as `getItemId` computes it. -/
def rawItemCanonicalId (item : CJson) : String :=
  (item.get "identifier").asStr ++ "." ++
  ((item.get "locale").get "language").asStr ++ "_" ++
  ((item.get "locale").get "country").asStr

/-- A raw CaaS item carrying the id fields `getItemId` needs: no
`previewId` (it is unmapped), and truthy `identifier` and locale parts. -/
def wellFormedRawItem (item : CJson) : Prop :=
  (item.get "previewId").truthy = false
  ∧ (item.get "identifier").truthy = true
  ∧ ((item.get "locale").get "language").truthy = true
  ∧ ((item.get "locale").get "country").truthy = true

/-- The warnings `mapFilterResponse` logs for a run of unmappable items
starting at index `i0`. -/
def unmappedWarns (items : List CJson) (i0 : Nat) : List LogMsg :=
  match items with
  | [] => []
  | it :: rest =>
      .warnUnmappableItem i0 (it.get "fsType") :: unmappedWarns rest (i0 + 1)

theorem alookup_aset_self {α : Type} (l : List (String × α)) (k : String)
    (v : α) : alookup (aset l k v) k = some v := by
  induction l with
  | nil => simp [aset, alookup]
  | cons p rest ih =>
      by_cases h : p.1 = k
      · simp [aset, alookup, h]
      · simp [aset, alookup, h, ih]

theorem alookup_aset_ne {α : Type} (l : List (String × α)) (k k' : String)
    (v : α) (h : k' ≠ k) : alookup (aset l k v) k' = alookup l k' := by
  have hks : ¬ k = k' := fun hh => h hh.symm
  induction l with
  | nil => simp [aset, alookup, hks]
  | cons p rest ih =>
      by_cases hp : p.1 = k
      · simp [aset, alookup, hp, hks]
      · simp [aset, alookup, hp, ih]

theorem chunkList_cons_of {α : Type} (n : Nat) (xs : List α) (hn : n ≠ 0)
    (hx : xs ≠ []) :
    chunkList n xs = xs.take n :: chunkList n (xs.drop n) := by
  match xs with
  | [] => exact absurd rfl hx
  | x :: rest => rw [chunkList]; simp [hn]

theorem chunkList_nil {α : Type} (n : Nat) :
    chunkList n ([] : List α) = [] := by
  rw [chunkList]

theorem chunkList_length65 {α : Type} (xs : List α) (h : xs.length = 65) :
    (chunkList 30 xs).map List.length = [30, 30, 5] := by
  have h1 : xs ≠ [] := by intro hh; rw [hh] at h; simp at h
  rw [chunkList_cons_of 30 xs (by omega) h1]
  have hd1 : (xs.drop 30).length = 35 := by simp [h]
  have h2 : xs.drop 30 ≠ [] := by
    intro hh; rw [hh] at hd1; simp at hd1
  rw [chunkList_cons_of 30 _ (by omega) h2]
  have hd2 : ((xs.drop 30).drop 30).length = 5 := by simp [h]
  have h3 : (xs.drop 30).drop 30 ≠ [] := by
    intro hh; rw [hh] at hd2; simp at hd2
  rw [chunkList_cons_of 30 _ (by omega) h3]
  have hd3 : (((xs.drop 30).drop 30).drop 30).length = 0 := by simp [h]
  have h4 : ((xs.drop 30).drop 30).drop 30 = [] := by
    exact List.eq_nil_of_length_eq_zero hd3
  rw [h4, chunkList_nil]
  simp [h, hd1, hd2]

/-- C3: `unifyId` is a pure function such that a raw id with a `.` separator
after position 0 is treated as `{uuid}.{locale}` — its locale segment is
replaced when a remote configuration carrying its own locale is supplied and
kept unchanged otherwise — a raw id without a separator gets `.` plus the
remote locale (else the active request locale) appended, and a supplied
remote configuration prefixes the result with `{remoteProjectConfig.id}#`;
concretely `unifyId "abc123" none` under active locale `en_GB` is
`"abc123.en_GB"` and `unifyId "abc123.de_DE" (some {id := "media",
locale := some "en_GB"})` is `"media#abc123.en_GB"`. -/
theorem caas_C3 (ctx : Ctx) (id : String) :
    (∀ (cfg : RemoteProjectConfigurationEntry) (l : String),
       cfg.locale = some l → l ≠ "" → jsIndexOf id '.' > 0 →
       unifyId ctx id (some cfg) =
         cfg.id ++ "#" ++ jsSubstringTo id (jsIndexOf id '.').toNat ++ "." ++ l)
  ∧ (∀ cfg : RemoteProjectConfigurationEntry, cfg.locale = none →
       jsIndexOf id '.' > 0 →
       unifyId ctx id (some cfg) = cfg.id ++ "#" ++ id)
  ∧ (jsIndexOf id '.' > 0 → unifyId ctx id none = id)
  ∧ (jsIndexOf id '.' ≤ 0 → unifyId ctx id none = id ++ "." ++ ctx.locale)
  ∧ (∀ (cfg : RemoteProjectConfigurationEntry) (l : String),
       cfg.locale = some l → l ≠ "" → jsIndexOf id '.' ≤ 0 →
       unifyId ctx id (some cfg) = cfg.id ++ "#" ++ id ++ "." ++ l)
  ∧ (∀ cfg : RemoteProjectConfigurationEntry, cfg.locale = none →
       jsIndexOf id '.' ≤ 0 →
       unifyId ctx id (some cfg) = cfg.id ++ "#" ++ id ++ "." ++ ctx.locale)
  ∧ (∀ ctx' : Ctx, ctx'.locale = "en_GB" →
       unifyId ctx' "abc123" none = "abc123.en_GB"
       ∧ unifyId ctx' "abc123.de_DE"
           (some { id := "media", locale := some "en_GB" }) =
         "media#abc123.en_GB") := by
  refine ⟨?_, ?_, ?_, ?_, ?_, ?_, ?_⟩
  · intro cfg l hl hne hgt
    simp [unifyId, hl, jsTruthyOptStr, hgt, hne, String.append_assoc]
  · intro cfg hl hgt
    simp [unifyId, hl, jsTruthyOptStr, hgt]
  · intro hgt
    simp [unifyId, jsTruthyOptStr, hgt]
  · intro hle
    have : ¬ jsIndexOf id '.' > 0 := by omega
    simp [unifyId, jsTruthyOptStr, this, jsOrS]
  · intro cfg l hl hne hle
    have : ¬ jsIndexOf id '.' > 0 := by omega
    simp [unifyId, hl, jsTruthyOptStr, this, jsOrS, hne, String.append_assoc]
  · intro cfg hl hle
    have : ¬ jsIndexOf id '.' > 0 := by omega
    simp [unifyId, hl, jsTruthyOptStr, this, jsOrS, String.append_assoc]
  · intro ctx' hloc
    refine ⟨?_, ?_⟩
    · simp [unifyId, jsTruthyOptStr, jsOrS, jsIndexOf, hloc]
    · rfl

/-- Witness for C3 at concrete inputs: the id `"a.de"` with a remote config
`{id := "m", locale := some "fr"}` has its locale replaced and is prefixed,
and the bare id `"a"` without a config gets the active locale appended. -/
theorem caas_C3_witness :
    (({ id := "m", locale := some "fr" } :
        RemoteProjectConfigurationEntry).locale = some "fr")
    ∧ ("fr" : String) ≠ ""
    ∧ jsIndexOf "a.de" '.' > 0
    ∧ unifyId
        { locale := "en_GB", remotes := [], contentModePreview := false,
          xmlParse := fun _ => [], parseISODate := fun v => v,
          customMapper := none }
        "a.de" (some { id := "m", locale := some "fr" }) = "m#a.fr" := by
  refine ⟨rfl, by decide, by decide, ?_⟩
  have h := (caas_C3
    { locale := "en_GB", remotes := [], contentModePreview := false,
      xmlParse := fun _ => [], parseISODate := fun v => v,
      customMapper := none } "a.de").1
    { id := "m", locale := some "fr" } "fr" rfl (by decide) (by decide)
  rw [h]
  rfl

/-- C4: `registerReferencedItem` appends the given path to the registry
entry for the canonical (unified) id under the correct project bucket and
returns exactly one of the three placeholder token formats:
`IMAGEMAP___{resolutionKey}___{canonicalId}` when an image-map resolution
key is supplied, `[REFERENCED-REMOTE-ITEM-{canonicalId}]` for a
remote-project reference, and `[REFERENCED-ITEM-{canonicalId}]` for a local
reference. -/
theorem caas_C4 (ctx : Ctx) (st : MState) (identifier : String)
    (path : NestedPath) (rid imr : Option String) :
    ((registerReferencedItem ctx st identifier path rid imr).2 =
      if jsTruthyOptStr imr then
        "IMAGEMAP___" ++ imr.getD "" ++ "___" ++
          unifyId ctx identifier (getRemoteConfigForProject ctx rid)
      else if jsTruthyOptStr
          ((getRemoteConfigForProject ctx rid).map (fun c => c.id)) then
        "[REFERENCED-REMOTE-ITEM-" ++
          unifyId ctx identifier (getRemoteConfigForProject ctx rid) ++ "]"
      else
        "[REFERENCED-ITEM-" ++
          unifyId ctx identifier (getRemoteConfigForProject ctx rid) ++ "]")
  ∧ (∀ key : String,
      (getRemoteConfigForProject ctx rid).map (fun c => c.id) = some key →
      key ≠ "" →
      alookup ((alookup
          (registerReferencedItem ctx st identifier path rid imr).1.remoteReferences
          key).getD [])
          (unifyId ctx identifier (getRemoteConfigForProject ctx rid)) =
        some (((alookup ((alookup st.remoteReferences key).getD [])
          (unifyId ctx identifier (getRemoteConfigForProject ctx rid))).getD [])
          ++ [path])
      ∧ (registerReferencedItem ctx st identifier path rid imr).1.referencedItems
          = st.referencedItems)
  ∧ (jsTruthyOptStr
        ((getRemoteConfigForProject ctx rid).map (fun c => c.id)) = false →
      alookup
          (registerReferencedItem ctx st identifier path rid imr).1.referencedItems
          (unifyId ctx identifier (getRemoteConfigForProject ctx rid)) =
        some (((alookup st.referencedItems
          (unifyId ctx identifier (getRemoteConfigForProject ctx rid))).getD [])
          ++ [path])
      ∧ (registerReferencedItem ctx st identifier path rid imr).1.remoteReferences
          = st.remoteReferences) := by
  refine ⟨?_, ?_, ?_⟩
  · simp only [registerReferencedItem]
    split
    · split <;> rfl
    · split <;> rfl
  · intro key hkey hne
    have hkt : jsTruthyOptStr
        ((getRemoteConfigForProject ctx rid).map (fun c => c.id)) = true := by
      rw [hkey]; simp [jsTruthyOptStr, hne]
    constructor
    · simp only [registerReferencedItem, hkt, if_true]
      simp only [hkey, Option.getD_some]
      rw [alookup_aset_self]
      simp only [Option.getD_some]
      rw [alookup_aset_self]
      simp only [Bool.not_true, Bool.and_false, Bool.false_eq_true, if_false]
    · simp only [registerReferencedItem, hkt, if_true]
      split <;> rfl
  · intro hkf
    constructor
    · simp only [registerReferencedItem, hkf]
      simp only [Bool.false_eq_true, if_false]
      rw [alookup_aset_self]
      split <;> rfl
    · simp only [registerReferencedItem, hkf]
      simp only [Bool.false_eq_true, if_false]
      split <;> rfl

/-- Witness for C4: registering `"abc"` from the configured remote project
`media` stores the path under `media#abc.en_GB` in the `media` bucket and
leaves the local registry untouched. -/
theorem caas_C4_witness :
    (getRemoteConfigForProject ctxFixR (some "media")).map (fun c => c.id) =
      some "media"
    ∧ ("media" : String) ≠ ""
    ∧ alookup ((alookup
        (registerReferencedItem ctxFixR stFixR "abc" [] (some "media")
          none).1.remoteReferences "media").getD [])
        (unifyId ctxFixR "abc" (getRemoteConfigForProject ctxFixR
          (some "media"))) =
      some (((alookup ((alookup stFixR.remoteReferences "media").getD [])
        (unifyId ctxFixR "abc" (getRemoteConfigForProject ctxFixR
          (some "media")))).getD []) ++ [[]]) := by
  refine ⟨rfl, by decide, ?_⟩
  exact ((caas_C4 ctxFixR stFixR "abc" [] (some "media") none).2.1
    "media" rfl (by decide)).1

/-- C5: when `registerReferencedItem` is called with a `remoteProjectId`
for which no matching remote configuration exists, a warning is logged and
the reference is treated as a local reference — the call behaves exactly
like a local registration on the warning-extended state, the path is
recorded in the local registry under the id unified with the active request
locale and no project prefix, the remote registries are untouched, the
local placeholder token is returned (the bracket form when no image-map
resolution key is supplied), and no error is raised (the function is
total). -/
theorem caas_C5 (ctx : Ctx) (st : MState) (identifier : String)
    (path : NestedPath) (r : String) (imr : Option String)
    (hr : r ≠ "")
    (hfind : ctx.remotes.find? (fun e => e.id == r) = none) :
    registerReferencedItem ctx st identifier path (some r) imr =
      registerReferencedItem ctx
        (pushLog st (.warnNoRemoteKey identifier r)) identifier path none imr
  ∧ (registerReferencedItem ctx st identifier path (some r) imr).1.log =
      st.log ++ [.warnNoRemoteKey identifier r]
  ∧ alookup
      (registerReferencedItem ctx st identifier path (some r) imr).1.referencedItems
      (unifyId ctx identifier none) =
      some (((alookup st.referencedItems (unifyId ctx identifier none)).getD [])
        ++ [path])
  ∧ (registerReferencedItem ctx st identifier path (some r) imr).1.remoteReferences
      = st.remoteReferences
  ∧ (imr = none →
      (registerReferencedItem ctx st identifier path (some r) imr).2 =
        "[REFERENCED-ITEM-" ++ unifyId ctx identifier none ++ "]") := by
  have hcfg : getRemoteConfigForProject ctx (some r) = none := by
    simp [getRemoteConfigForProject, jsTruthyOptStr, hr, hfind]
  have hcfg0 : getRemoteConfigForProject ctx none = none := by
    simp [getRemoteConfigForProject, jsTruthyOptStr]
  refine ⟨?_, ?_, ?_, ?_, ?_⟩
  · simp [registerReferencedItem, hcfg, hcfg0, jsTruthyOptStr, hr, pushLog]
  · simp [registerReferencedItem, hcfg, jsTruthyOptStr, hr, pushLog]
  · simp [registerReferencedItem, hcfg, jsTruthyOptStr, hr, pushLog,
      alookup_aset_self]
  · simp [registerReferencedItem, hcfg, jsTruthyOptStr, hr, pushLog]
  · intro him
    simp [registerReferencedItem, hcfg, jsTruthyOptStr, hr, him, pushLog]

/-- Witness for C5: registering from the unconfigured remote project
`nope` under `ctxFixR`. -/
theorem caas_C5_witness :
    ("nope" : String) ≠ ""
    ∧ ctxFixR.remotes.find? (fun e => e.id == "nope") = none
    ∧ (registerReferencedItem ctxFixR stFixR "abc" [] (some "nope") none).1.log
        = stFixR.log ++ [.warnNoRemoteKey "abc" "nope"]
    ∧ (registerReferencedItem ctxFixR stFixR "abc" [] (some "nope") none).2
        = "[REFERENCED-ITEM-" ++ unifyId ctxFixR "abc" none ++ "]" := by
  have h := caas_C5 ctxFixR stFixR "abc" [] "nope" none (by decide) (by rfl)
  exact ⟨by decide, by rfl, h.2.1, h.2.2.2.2 rfl⟩

/-- C1: a call to `resolveAllReferences` on a mapper whose `referenceDepth`
has reached `maxReferenceDepth` issues no fetch round — it only logs the
maximum-depth warning and leaves the resolved-reference cache and both
registries unchanged.  With `maxReferenceDepth = 0` the guard holds for
every state, so no resolution round ever executes and every id that is only
registered (never cached) keeps its placeholder token in `mappedItems`,
since only cache entries can replace placeholders during denormalization.
The depth counter never decreases and the configured maximum never changes,
so once the counter reaches the maximum no later call issues a fetch round
for the remainder of the request. -/
theorem caas_C1 (ctx : Ctx) (st : MState)
    (h : st.maxReferenceDepth ≤ st.referenceDepth) :
    resolveAllReferences ctx st =
      ({ st with log := st.log ++ [LogMsg.warnMaxDepth st.maxReferenceDepth] },
        [])
  ∧ (∀ st2 : MState, st2.maxReferenceDepth = 0 →
      (resolveAllReferences ctx st2).2 = []
      ∧ (resolveAllReferences ctx st2).1.resolvedReferences =
          st2.resolvedReferences
      ∧ (resolveAllReferences ctx st2).1.referencedItems = st2.referencedItems
      ∧ (resolveAllReferences ctx st2).1.remoteReferences =
          st2.remoteReferences)
  ∧ (∀ st3 : MState,
      st3.referenceDepth ≤ (resolveAllReferences ctx st3).1.referenceDepth
      ∧ (resolveAllReferences ctx st3).1.maxReferenceDepth =
          st3.maxReferenceDepth) := by
  refine ⟨?_, ?_, ?_⟩
  · simp [resolveAllReferences, h, pushLog]
  · intro st2 h2
    have hge : st2.referenceDepth ≥ st2.maxReferenceDepth := by omega
    simp [resolveAllReferences, hge, pushLog]
  · intro st3
    by_cases h3 : st3.referenceDepth ≥ st3.maxReferenceDepth
    · simp [resolveAllReferences, h3, pushLog]
    · simp [resolveAllReferences, h3, pushLog]

/-- Witness for C1: a state whose depth counter equals the maximum. -/
theorem caas_C1_witness :
    ({ stFix with referenceDepth := 10 } : MState).maxReferenceDepth ≤
      ({ stFix with referenceDepth := 10 } : MState).referenceDepth
    ∧ resolveAllReferences ctxFix { stFix with referenceDepth := 10 } =
      ({ stFix with
          referenceDepth := 10
          log := stFix.log ++ [LogMsg.warnMaxDepth 10] }, []) := by
  refine ⟨by decide, ?_⟩
  exact (caas_C1 ctxFix { stFix with referenceDepth := 10 } (by decide)).1

/-- C2: in a resolution round, for each project, the ids fetched are exactly
the project's registry keys minus the resolved-reference cache keys (a set
difference on canonical ids, each survivor stripped of its
`{remoteProjectKey}#` prefix and `.{locale}` suffix via
`substring(indexOf('#') + 1, indexOf('.'))`), split into batches of the
fixed size `REFERENCED_ITEMS_CHUNK_SIZE = 30` with one fetch call per
batch; 65 distinct unresolved ids yield exactly 3 batches of sizes 30, 30
and 5. -/
theorem caas_C2 (ctx : Ctx) (st : MState) (rid : Option String) :
    ((resolveReferencesPerProject ctx st rid).map FetchCall.ids =
      chunkList REFERENCED_ITEMS_CHUNK_SIZE (idsToFetchFromCaaS st rid))
  ∧ (idsToFetchFromCaaS st rid =
      (((registryBucket st rid).map Prod.fst).filter
        (fun id => !(st.resolvedReferences.map Prod.fst).contains id)).map
        stripStoreId)
  ∧ ((idsToFetchFromCaaS st rid).length = 65 →
      (resolveReferencesPerProject ctx st rid).length = 3
      ∧ (resolveReferencesPerProject ctx st rid).map
          (fun c => c.ids.length) = [30, 30, 5]) := by
  refine ⟨?_, rfl, ?_⟩
  · by_cases h : (idsToFetchFromCaaS st rid).length > 0
    · simp [resolveReferencesPerProject, h, Function.comp_def]
    · have hz : (idsToFetchFromCaaS st rid).length = 0 := by omega
      have hnil : idsToFetchFromCaaS st rid = [] :=
        List.eq_nil_of_length_eq_zero hz
      simp [resolveReferencesPerProject, h, hnil, chunkList_nil]
  · intro h65
    have hpos : (idsToFetchFromCaaS st rid).length > 0 := by omega
    have hmap : (resolveReferencesPerProject ctx st rid).map FetchCall.ids =
        chunkList REFERENCED_ITEMS_CHUNK_SIZE (idsToFetchFromCaaS st rid) := by
      simp [resolveReferencesPerProject, hpos, Function.comp_def]
    have hlen : ((resolveReferencesPerProject ctx st rid).map
        FetchCall.ids).map List.length = [30, 30, 5] := by
      rw [hmap]
      exact chunkList_length65 _ h65
    constructor
    · have := congrArg List.length hlen
      simpa using this
    · simpa [List.map_map, Function.comp] using hlen

/-- Witness for C2: a registry of 65 distinct canonical ids and an empty
cache produce exactly the 30/30/5 batching. -/
theorem caas_C2_witness :
    (idsToFetchFromCaaS
        { stFix with referencedItems :=
            (List.range 65).map (fun i => ("k" ++ toString i ++ ".en", [])) }
        none).length = 65
    ∧ (resolveReferencesPerProject ctxFix
        { stFix with referencedItems :=
            (List.range 65).map (fun i => ("k" ++ toString i ++ ".en", [])) }
        none).map (fun c => c.ids.length) = [30, 30, 5] := by
  refine ⟨by rfl, ?_⟩
  exact ((caas_C2 ctxFix
    { stFix with referencedItems :=
        (List.range 65).map (fun i => ("k" ++ toString i ++ ".en", [])) }
    none).2.2 (by rfl)).2

/-- C8: a data entry whose `fsType` does not match any recognized kind is
returned unchanged by `mapDataEntry` (built-in dispatch, i.e. no custom
mapper installed): the node is not dropped, the state is untouched, no
error is raised, and traversal continues. -/
theorem caas_C8 (fuel : Nat) (ctx : Ctx) (st : MState) (entry : CJson)
    (path : NestedPath) (rl rid : Option String)
    (hcm : ctx.customMapper = none)
    (hun : recognizedDataEntryKind (entry.get "fsType") = false) :
    mapDataEntry (fuel + 1) ctx st entry path rl rid = .ok (st, entry) := by
  have hf : ∀ k ∈ recognizedDataEntryKinds,
      (entry.get "fsType").isStrTag k = false := by
    simpa [recognizedDataEntryKind, List.any_eq_false] using hun
  rw [mapDataEntry]
  rw [hcm]
  simp only [hf _ (by decide : "CMS_INPUT_COMBOBOX" ∈ recognizedDataEntryKinds),
    hf _ (by decide : "CMS_INPUT_DOM" ∈ recognizedDataEntryKinds),
    hf _ (by decide : "CMS_INPUT_DOMTABLE" ∈ recognizedDataEntryKinds),
    hf _ (by decide : "CMS_INPUT_NUMBER" ∈ recognizedDataEntryKinds),
    hf _ (by decide : "CMS_INPUT_TEXT" ∈ recognizedDataEntryKinds),
    hf _ (by decide : "CMS_INPUT_TEXTAREA" ∈ recognizedDataEntryKinds),
    hf _ (by decide : "CMS_INPUT_RADIOBUTTON" ∈ recognizedDataEntryKinds),
    hf _ (by decide : "CMS_INPUT_DATE" ∈ recognizedDataEntryKinds),
    hf _ (by decide : "CMS_INPUT_LINK" ∈ recognizedDataEntryKinds),
    hf _ (by decide : "CMS_INPUT_LIST" ∈ recognizedDataEntryKinds),
    hf _ (by decide : "CMS_INPUT_CHECKBOX" ∈ recognizedDataEntryKinds),
    hf _ (by decide : "CMS_INPUT_IMAGEMAP" ∈ recognizedDataEntryKinds),
    hf _ (by decide : "FS_DATASET" ∈ recognizedDataEntryKinds),
    hf _ (by decide : "CMS_INPUT_TOGGLE" ∈ recognizedDataEntryKinds),
    hf _ (by decide : "FS_CATALOG" ∈ recognizedDataEntryKinds),
    hf _ (by decide : "FS_REFERENCE" ∈ recognizedDataEntryKinds),
    hf _ (by decide : "FS_INDEX" ∈ recognizedDataEntryKinds),
    hf _ (by decide : "Option" ∈ recognizedDataEntryKinds),
    hf _ (by decide : "CMS_INPUT_PERMISSION" ∈ recognizedDataEntryKinds),
    Bool.or_false, Bool.false_or, Bool.false_eq_true, if_false]

/-- Witness for C8: a concrete entry of the unknown kind
`FS_SOMETHING_NEW` passes through unchanged. -/
theorem caas_C8_witness :
    ctxFix.customMapper = none
    ∧ recognizedDataEntryKind
        ((CJson.obj [("fsType", CJson.str "FS_SOMETHING_NEW"),
          ("value", CJson.num 7)]).get "fsType") = false
    ∧ mapDataEntry 1 ctxFix stFix
        (CJson.obj [("fsType", CJson.str "FS_SOMETHING_NEW"),
          ("value", CJson.num 7)]) [] none none =
      .ok (stFix, CJson.obj [("fsType", CJson.str "FS_SOMETHING_NEW"),
        ("value", CJson.num 7)]) := by
  refine ⟨rfl, by rfl, ?_⟩
  exact caas_C8 0 ctxFix stFix
    (CJson.obj [("fsType", CJson.str "FS_SOMETHING_NEW"),
      ("value", CJson.num 7)]) [] none none rfl (by rfl)

/-- C6 counterexample: a `CMS_INPUT_IMAGEMAP` data entry with no value
payload is NOT fatal for the node — `mapDataEntry` returns it mapped to the
null result (guard at CaaSMapper.ts lines 333-335), without raising any
error. -/
theorem caas_C6_counterexample :
    mapDataEntry 1 ctxFix stFix
      (CJson.obj [("fsType", CJson.str "CMS_INPUT_IMAGEMAP")]) [] none none =
      .ok (stFix, CJson.null) := by
  rfl

/-- C6 (amended): a `CMS_INPUT_IMAGEMAP` data entry whose value payload is
missing is mapped to a null result by `mapDataEntry` (built-in dispatch):
no data-integrity error is raised for the node and it is not passed
through.  Only a direct `mapImageMap` call on a missing value payload
raises the `ImageMap value is null` error, a branch `mapDataEntry` never
reaches because of its own null guard. -/
theorem caas_C6 (fuel : Nat) (ctx : Ctx) (st : MState) (entry : CJson)
    (path : NestedPath) (rl rid : Option String)
    (hcm : ctx.customMapper = none)
    (hty : entry.get "fsType" = CJson.str "CMS_INPUT_IMAGEMAP")
    (hval : (entry.get "value").truthy = false) :
    mapDataEntry (fuel + 1) ctx st entry path rl rid = .ok (st, CJson.null)
  ∧ (∀ (fuel' : Nat) (st' : MState) (im : CJson) (p : NestedPath),
      (im.get "value").truthy = false →
      mapImageMap (fuel' + 1) ctx st' im p rl rid =
        .error (.thrown "ImageMap value is null")) := by
  constructor
  · have e1 : (entry.get "fsType").isStrTag "CMS_INPUT_COMBOBOX" = false := by
      simp [hty, CJson.isStrTag]
    have e2 : (entry.get "fsType").isStrTag "CMS_INPUT_DOM" = false := by
      simp [hty, CJson.isStrTag]
    have e3 : (entry.get "fsType").isStrTag "CMS_INPUT_DOMTABLE" = false := by
      simp [hty, CJson.isStrTag]
    have e4 : (entry.get "fsType").isStrTag "CMS_INPUT_NUMBER" = false := by
      simp [hty, CJson.isStrTag]
    have e5 : (entry.get "fsType").isStrTag "CMS_INPUT_TEXT" = false := by
      simp [hty, CJson.isStrTag]
    have e6 : (entry.get "fsType").isStrTag "CMS_INPUT_TEXTAREA" = false := by
      simp [hty, CJson.isStrTag]
    have e7 : (entry.get "fsType").isStrTag "CMS_INPUT_RADIOBUTTON" = false := by
      simp [hty, CJson.isStrTag]
    have e8 : (entry.get "fsType").isStrTag "CMS_INPUT_DATE" = false := by
      simp [hty, CJson.isStrTag]
    have e9 : (entry.get "fsType").isStrTag "CMS_INPUT_LINK" = false := by
      simp [hty, CJson.isStrTag]
    have e10 : (entry.get "fsType").isStrTag "CMS_INPUT_LIST" = false := by
      simp [hty, CJson.isStrTag]
    have e11 : (entry.get "fsType").isStrTag "CMS_INPUT_CHECKBOX" = false := by
      simp [hty, CJson.isStrTag]
    have e12 : (entry.get "fsType").isStrTag "CMS_INPUT_IMAGEMAP" = true := by
      simp [hty, CJson.isStrTag]
    rw [mapDataEntry]
    rw [hcm]
    simp only [e1, e2, e3, e4, e5, e6, e7, e8, e9, e10, e11, e12,
      Bool.or_false, Bool.false_or, Bool.false_eq_true, if_false, if_true,
      hval, Bool.not_false, Bool.or_true]
  · intro fuel' st' im p him
    rw [mapImageMap]
    simp only [him, Bool.not_false, if_true]

/-- Witness for C6 (amended): the concrete valueless image-map entry maps
to null, and `mapImageMap` on the same node throws. -/
theorem caas_C6_witness :
    ctxFix.customMapper = none
    ∧ (CJson.obj [("fsType", CJson.str "CMS_INPUT_IMAGEMAP")]).get "fsType" =
        CJson.str "CMS_INPUT_IMAGEMAP"
    ∧ ((CJson.obj [("fsType", CJson.str "CMS_INPUT_IMAGEMAP")]).get
        "value").truthy = false
    ∧ mapDataEntry 3 ctxFix stFix
        (CJson.obj [("fsType", CJson.str "CMS_INPUT_IMAGEMAP")]) [] none none
        = .ok (stFix, CJson.null)
    ∧ mapImageMap 3 ctxFix stFix
        (CJson.obj [("fsType", CJson.str "CMS_INPUT_IMAGEMAP")]) [] none none
        = .error (.thrown "ImageMap value is null") := by
  have h := caas_C6 2 ctxFix stFix
    (CJson.obj [("fsType", CJson.str "CMS_INPUT_IMAGEMAP")]) [] none none
    rfl (by rfl) (by rfl)
  exact ⟨rfl, by rfl, by rfl, h.1,
    h.2 2 stFix (CJson.obj [("fsType", CJson.str "CMS_INPUT_IMAGEMAP")]) []
      (by rfl)⟩

/-- C7: a body-content node whose `fsType` is not one of the recognized
section kinds (`Content2Section`, `Section`, `SectionReference`,
`GCASection`) makes `mapBodyContent` raise an error naming the unknown
fsType — in contrast to the pass-through policy of `mapDataEntry` for
unrecognized data-entry kinds (proved as C8). -/
theorem caas_C7 (fuel : Nat) (ctx : Ctx) (st : MState) (content : CJson)
    (path : NestedPath) (rl rid : Option String) (s : String)
    (hty : content.get "fsType" = CJson.str s)
    (hs : s ∉ ["Content2Section", "Section", "SectionReference",
      "GCASection"]) :
    mapBodyContent fuel ctx st content path rl rid =
      .error (.thrown (UNKNOWN_BODY_CONTENT ++ " fsType=[" ++ s ++ "]")) := by
  simp only [List.mem_cons, List.not_mem_nil, or_false, not_or] at hs
  obtain ⟨n1, n2, n3, n4⟩ := hs
  have e1 : (content.get "fsType").isStrTag "Content2Section" = false := by
    simp [CJson.isStrTag, hty, n1]
  have e2 : (content.get "fsType").isStrTag "Section" = false := by
    simp [CJson.isStrTag, hty, n2]
  have e3 : (content.get "fsType").isStrTag "SectionReference" = false := by
    simp [CJson.isStrTag, hty, n3]
  have e4 : (content.get "fsType").isStrTag "GCASection" = false := by
    simp [CJson.isStrTag, hty, n4]
  simp only [mapBodyContent, e1, e2, e3, e4, Bool.or_false, Bool.false_or,
    Bool.false_eq_true, if_false]
  simp only [hty, jsTemplateShow]

/-- Witness for C7: the concrete unknown body-content kind `Teaser`. -/
theorem caas_C7_witness :
    (CJson.obj [("fsType", CJson.str "Teaser")]).get "fsType" =
      CJson.str "Teaser"
    ∧ ("Teaser" : String) ∉ ["Content2Section", "Section",
        "SectionReference", "GCASection"]
    ∧ mapBodyContent 3 ctxFix stFix
        (CJson.obj [("fsType", CJson.str "Teaser")]) [] none none =
      .error (.thrown (UNKNOWN_BODY_CONTENT ++ " fsType=[" ++ "Teaser" ++
        "]")) := by
  refine ⟨by rfl, by decide, ?_⟩
  exact caas_C7 3 ctxFix stFix (CJson.obj [("fsType", CJson.str "Teaser")])
    [] none none "Teaser" (by rfl) (by decide)

/-- C10: when the CaaS response carries no documents (`data._embedded` or
`data._embedded['rh:doc']` missing or an empty array), `fetchByFilter`
returns exactly `{page: 1, pagesize: 30, size: undefined, totalPages:
undefined, items: []}` — `page` and `pagesize` hardcoded to 1 and 30
whatever the caller requested — and the mapping-and-resolution pipeline
(mapper construction, item mapping, reference resolution) is never entered:
the result is the same for every pipeline `mapAndResolve`. -/
theorem caas_C10 (page0 pagesize0 : Int) (data : CJson)
    (mapAndResolve : List CJson → Except Err (List CJson))
    (h : (data.get "_embedded").truthy = false
      ∨ ((data.get "_embedded").get "rh:doc").truthy = false
      ∨ (data.get "_embedded").get "rh:doc" = CJson.arr []) :
    fetchByFilterProcess page0 pagesize0 data mapAndResolve =
      .ok { page := 1, pagesize := 30, size := CJson.null,
            totalPages := CJson.null, items := [] } := by
  rcases h with h | h | h
  · simp [fetchByFilterProcess, h, jsLengthEq0]
  · simp [fetchByFilterProcess, h, jsLengthEq0]
  · by_cases ht : (data.get "_embedded").truthy
    · simp [fetchByFilterProcess, ht, h, jsLengthEq0, CJson.truthy]
    · simp [fetchByFilterProcess, ht, jsLengthEq0]

/-- Witness for C10: a response whose `rh:doc` list is empty, requested
with `page = 7`, `pagesize = 50` and a pipeline that would return an item,
still yields the fixed empty response. -/
theorem caas_C10_witness :
    ((CJson.obj [("_embedded", CJson.obj [("rh:doc", CJson.arr [])]),
        ("_total_pages", CJson.num 9)]).get "_embedded").get "rh:doc" =
      CJson.arr []
    ∧ fetchByFilterProcess 7 50
        (CJson.obj [("_embedded", CJson.obj [("rh:doc", CJson.arr [])]),
          ("_total_pages", CJson.num 9)])
        (fun _ => .ok [CJson.str "item"]) =
      .ok { page := 1, pagesize := 30, size := CJson.null,
            totalPages := CJson.null, items := [] } := by
  refine ⟨by rfl, ?_⟩
  exact caas_C10 7 50
    (CJson.obj [("_embedded", CJson.obj [("rh:doc", CJson.arr [])]),
      ("_total_pages", CJson.num 9)])
    (fun _ => .ok [CJson.str "item"]) (Or.inr (Or.inr (by rfl)))

theorem truthy_of_get_truthy (j : CJson) (k : String)
    (h : (j.get k).truthy = true) : j.truthy = true := by
  cases j <;> simp [CJson.get, CJson.truthy] at h ⊢

theorem getItemId_raw (item : CJson) (h : wellFormedRawItem item) :
    getItemId item none = some (rawItemCanonicalId item) := by
  obtain ⟨h1, h2, h3, h4⟩ := h
  simp [getItemId, h1, h2, h3, h4, rawItemCanonicalId]

theorem mapTopLevelItem_unrec (fuel : Nat) (ctx : Ctx) (st : MState)
    (it : CJson) (i : Nat) (rl rid : Option String)
    (h : recognizedTopLevelKind (it.get "fsType") = false) :
    mapTopLevelItem fuel ctx st it i rl rid =
      .ok (pushLog st (.warnUnmappableItem i (it.get "fsType")), it) := by
  have hf : ∀ k ∈ recognizedTopLevelKinds,
      (it.get "fsType").isStrTag k = false := by
    simpa [recognizedTopLevelKind, List.any_eq_false] using h
  simp only [mapTopLevelItem,
    hf _ (by decide : "Dataset" ∈ recognizedTopLevelKinds),
    hf _ (by decide : "PageRef" ∈ recognizedTopLevelKinds),
    hf _ (by decide : "Media" ∈ recognizedTopLevelKinds),
    hf _ (by decide : "GCAPage" ∈ recognizedTopLevelKinds),
    hf _ (by decide : "ProjectProperties" ∈ recognizedTopLevelKinds),
    Bool.false_eq_true, if_false]

theorem except_bind_ok {ε α β : Type} (a : α) (f : α → Except ε β) :
    (Except.ok a >>= f) = f a := rfl

theorem stMapIdx_unrec (fuel : Nat) (ctx : Ctx) (rl rid : Option String)
    (items : List CJson) :
    ∀ (st : MState) (i0 : Nat),
    (∀ it ∈ items, recognizedTopLevelKind (it.get "fsType") = false) →
    stMapIdx (fun st i it => mapTopLevelItem fuel ctx st it i rl rid)
        st i0 items =
      .ok ({ st with log := st.log ++ unmappedWarns items i0 }, items) := by
  induction items with
  | nil => intro st i0 _; simp [stMapIdx, unmappedWarns]
  | cons x rest ih =>
      intro st i0 h
      have hx := h x (List.mem_cons_self x rest)
      have hrest : ∀ it ∈ rest,
          recognizedTopLevelKind (it.get "fsType") = false :=
        fun it hit => h it (List.mem_cons_of_mem x hit)
      have hih := ih (pushLog st (.warnUnmappableItem i0 (x.get "fsType")))
        (i0 + 1) hrest
      simp only [stMapIdx, mapTopLevelItem_unrec fuel ctx st x i0 rl rid hx,
        except_bind_ok, hih]
      simp [pushLog, unmappedWarns]

theorem addToResolved_raw (s : MState) (item : CJson)
    (hwf : wellFormedRawItem item) :
    addToResolvedReferences s item none =
      { s with
          resolvedReferences :=
            aset s.resolvedReferences (rawItemCanonicalId item) item } := by
  simp [addToResolvedReferences, getItemId_raw item hwf]

theorem seedFold_resolved_other (items : List CJson) :
    ∀ (s : MState) (k : String),
    (∀ it ∈ items, wellFormedRawItem it) →
    k ∉ items.map rawItemCanonicalId →
    alookup (items.foldl
      (fun s item =>
        if item.truthy then addToResolvedReferences s item none else s)
      s).resolvedReferences k = alookup s.resolvedReferences k := by
  induction items with
  | nil => intro s k _ _; rfl
  | cons x rest ih =>
      intro s k hwf hk
      have hx := hwf x (List.mem_cons_self x rest)
      have ht : x.truthy = true := truthy_of_get_truthy x "identifier" hx.2.1
      simp only [List.foldl_cons, ht, if_true, addToResolved_raw s x hx]
      have hk1 : k ≠ rawItemCanonicalId x := by
        intro hh; exact hk (by simp [hh])
      have hk2 : k ∉ rest.map rawItemCanonicalId := by
        intro hh; exact hk (by simp [hh])
      rw [ih _ k (fun it hit => hwf it (List.mem_cons_of_mem x hit)) hk2]
      exact alookup_aset_ne _ _ _ _ hk1

theorem seedFold_resolved_mem (items : List CJson) :
    ∀ (s : MState),
    (∀ it ∈ items, wellFormedRawItem it) →
    (items.map rawItemCanonicalId).Nodup →
    ∀ it ∈ items,
    alookup (items.foldl
      (fun s item =>
        if item.truthy then addToResolvedReferences s item none else s)
      s).resolvedReferences (rawItemCanonicalId it) = some it := by
  induction items with
  | nil => intro s _ _ it hit; exact absurd hit (List.not_mem_nil it)
  | cons x rest ih =>
      intro s hwf hnd it hit
      have hx := hwf x (List.mem_cons_self x rest)
      have ht : x.truthy = true := truthy_of_get_truthy x "identifier" hx.2.1
      simp only [List.foldl_cons, ht, if_true, addToResolved_raw s x hx]
      have hnd2 : (∀ y ∈ rest, ¬ rawItemCanonicalId y = rawItemCanonicalId x)
          ∧ (rest.map rawItemCanonicalId).Nodup := by simpa using hnd
      rcases List.mem_cons.mp hit with heq | hmem
      · subst heq
        have hnotin : rawItemCanonicalId it ∉ rest.map rawItemCanonicalId := by
          intro hmm
          rcases List.mem_map.mp hmm with ⟨y, hy, hcy⟩
          exact hnd2.1 y hy hcy
        rw [seedFold_resolved_other rest _ _
          (fun x2 hx2 => hwf x2 (List.mem_cons_of_mem it hx2)) hnotin]
        exact alookup_aset_self _ _ _
      · exact ih _ (fun x2 hx2 => hwf x2 (List.mem_cons_of_mem x hx2))
          hnd2.2 it hmem

theorem seedFold_fields (items : List CJson) :
    ∀ s : MState,
    (∀ it ∈ items, wellFormedRawItem it) →
    (items.foldl
      (fun s item =>
        if item.truthy then addToResolvedReferences s item none else s)
      s).log = s.log
    ∧ (items.foldl
      (fun s item =>
        if item.truthy then addToResolvedReferences s item none else s)
      s).referencedItems = s.referencedItems
    ∧ (items.foldl
      (fun s item =>
        if item.truthy then addToResolvedReferences s item none else s)
      s).remoteReferences = s.remoteReferences
    ∧ (items.foldl
      (fun s item =>
        if item.truthy then addToResolvedReferences s item none else s)
      s).referenceDepth = s.referenceDepth
    ∧ (items.foldl
      (fun s item =>
        if item.truthy then addToResolvedReferences s item none else s)
      s).maxReferenceDepth = s.maxReferenceDepth := by
  induction items with
  | nil => intro s _; exact ⟨rfl, rfl, rfl, rfl, rfl⟩
  | cons x rest ih =>
      intro s hwf
      have hx := hwf x (List.mem_cons_self x rest)
      have ht : x.truthy = true := truthy_of_get_truthy x "identifier" hx.2.1
      simp only [List.foldl_cons, ht, if_true, addToResolved_raw s x hx]
      exact ih _ (fun it hit => hwf it (List.mem_cons_of_mem x hit))

theorem resolveAll_fields (ctx : Ctx) (st : MState) :
    ∃ t : List LogMsg,
    (resolveAllReferences ctx st).1.log = st.log ++ t
    ∧ (resolveAllReferences ctx st).1.resolvedReferences =
        st.resolvedReferences
    ∧ (resolveAllReferences ctx st).1.referencedItems = st.referencedItems
    ∧ (resolveAllReferences ctx st).1.remoteReferences =
        st.remoteReferences := by
  by_cases h : st.referenceDepth ≥ st.maxReferenceDepth
  · exact ⟨[LogMsg.warnMaxDepth st.maxReferenceDepth],
      by simp [resolveAllReferences, h, pushLog]⟩
  · exact ⟨[], by simp [resolveAllReferences, h]⟩

theorem filterMap_eq_self_of {α : Type} (l : List α) (f : α → Option α)
    (h : ∀ x ∈ l, f x = some x) : l.filterMap f = l := by
  induction l with
  | nil => rfl
  | cons x rest ih =>
      rw [List.filterMap_cons, h x (List.mem_cons_self x rest),
        ih (fun y hy => h y (List.mem_cons_of_mem x hy))]

theorem unmappedWarns_mem (items : List CJson) :
    ∀ (i0 : Nat) (i : Fin items.length),
    LogMsg.warnUnmappableItem (i0 + i.val) ((items.get i).get "fsType") ∈
      unmappedWarns items i0 := by
  induction items with
  | nil => intro i0 i; exact absurd i.isLt (by simp)
  | cons x rest ih =>
      intro i0 i
      match i with
      | ⟨0, _⟩ => simp [unmappedWarns, List.get]
      | ⟨j + 1, hj⟩ =>
          have := ih (i0 + 1) ⟨j, by simpa using hj⟩
          simp only [unmappedWarns, List.get]
          right
          simpa [Nat.add_assoc, Nat.add_comm 1 j] using this

/-- C9: every top-level raw item whose `fsType` is not one of `Dataset`,
`PageRef`, `Media`, `GCAPage`, `ProjectProperties` is warned about and
passed through unmapped by `mapFilterResponse`: for a fresh mapper and a
batch of such items (raw items carrying their id fields, with distinct
canonical ids), the call succeeds (no error), the returned `mappedItems`
are exactly the unmapped input items, and one warning per item is in the
log. -/
theorem caas_C9 (fuel : Nat) (ctx : Ctx)
    (remotes : List RemoteProjectConfigurationEntry) (maxDepth : Nat)
    (items : List CJson)
    (hall : ∀ it ∈ items, recognizedTopLevelKind (it.get "fsType") = false
      ∧ wellFormedRawItem it)
    (hnodup : (items.map rawItemCanonicalId).Nodup) :
    ∃ (stf : MState) (resp : MapResponse) (calls : List FetchCall),
      mapFilterResponse fuel ctx (initMState remotes 0 maxDepth) items false
        none none = .ok (stf, resp, calls)
      ∧ resp.mappedItems = items
      ∧ ∀ i : Fin items.length,
          LogMsg.warnUnmappableItem i.val ((items.get i).get "fsType") ∈
            stf.log := by
  have hwfall : ∀ it ∈ items, wellFormedRawItem it :=
    fun it h => (hall it h).2
  have hunrec : ∀ it ∈ items,
      recognizedTopLevelKind (it.get "fsType") = false :=
    fun it h => (hall it h).1
  have htruthy : ∀ it ∈ items, it.truthy = true :=
    fun it h => truthy_of_get_truthy it "identifier" (hwfall it h).2.1
  have hA := stMapIdx_unrec fuel ctx none none items
    (initMState remotes 0 maxDepth) 0 hunrec
  have hfilter : items.filter (fun item => item.truthy) = items :=
    List.filter_eq_self.mpr htruthy
  set st0 : MState := initMState remotes 0 maxDepth with hst0
  set stA : MState := { st0 with log := st0.log ++ unmappedWarns items 0 }
    with hstA
  set st2 : MState := items.foldl
    (fun s item =>
      if item.truthy then addToResolvedReferences s item none else s)
    stA with hst2
  set p : MState × List FetchCall :=
    if items.length > 0 then resolveAllReferences ctx st2 else (st2, [])
    with hp
  have heq : mapFilterResponse fuel ctx st0 items false none none =
      .ok (p.1,
        { resolvedReferences := p.1.resolvedReferences
          mappedItems := findResolvedReferencesByIds
            (items.map (fun item => getItemId item none))
            p.1.resolvedReferences
          referenceMap := mergedReferenceMap p.1 }, p.2) := by
    rw [mapFilterResponse]
    simp only [Bool.false_eq_true, if_false, hA, except_bind_ok, hfilter,
      pure, Except.pure]
  have hpres : p.1.resolvedReferences = st2.resolvedReferences := by
    by_cases hl : items.length > 0
    · rw [hp, if_pos hl]
      exact (resolveAll_fields ctx st2).choose_spec.2.1
    · rw [hp, if_neg hl]
  have hplog : ∃ t : List LogMsg, p.1.log = st2.log ++ t := by
    by_cases hl : items.length > 0
    · rw [hp, if_pos hl]
      exact ⟨(resolveAll_fields ctx st2).choose,
        (resolveAll_fields ctx st2).choose_spec.1⟩
    · rw [hp, if_neg hl]
      exact ⟨[], by simp⟩
  refine ⟨p.1, _, p.2, heq, ?_, ?_⟩
  · rw [hpres]
    show findResolvedReferencesByIds
      (items.map (fun item => getItemId item none))
      st2.resolvedReferences = items
    rw [findResolvedReferencesByIds, List.filterMap_map]
    apply filterMap_eq_self_of
    intro it hit
    show ((fun item => getItemId item none) it).bind
      (alookup st2.resolvedReferences) = some it
    rw [show (fun item => getItemId item none) it = getItemId it none
      from rfl]
    rw [getItemId_raw it (hwfall it hit)]
    rw [Option.some_bind]
    exact seedFold_resolved_mem items stA hwfall hnodup it hit
  · intro i
    obtain ⟨t, ht⟩ := hplog
    rw [ht]
    have hlog2 : st2.log = stA.log := (seedFold_fields items stA hwfall).1
    rw [hlog2, hstA]
    have := unmappedWarns_mem items 0 i
    simp only [Nat.zero_add] at this
    simp only [hst0, initMState, List.nil_append]
    exact List.mem_append_left _ this

/-- Witness for C9: one raw item of the unknown top-level kind
`MysteryKind` survives `mapFilterResponse` into `mappedItems` with a
warning. -/
theorem caas_C9_witness :
    (∀ it ∈ [CJson.obj [("fsType", CJson.str "MysteryKind"),
        ("identifier", CJson.str "i1"),
        ("locale", CJson.obj [("language", CJson.str "en"),
          ("country", CJson.str "GB")])]],
      recognizedTopLevelKind (it.get "fsType") = false
      ∧ wellFormedRawItem it)
    ∧ (([CJson.obj [("fsType", CJson.str "MysteryKind"),
        ("identifier", CJson.str "i1"),
        ("locale", CJson.obj [("language", CJson.str "en"),
          ("country", CJson.str "GB")])]].map rawItemCanonicalId).Nodup)
    ∧ ∃ (stf : MState) (resp : MapResponse) (calls : List FetchCall),
        mapFilterResponse 1 ctxFix (initMState [] 0 10)
          [CJson.obj [("fsType", CJson.str "MysteryKind"),
            ("identifier", CJson.str "i1"),
            ("locale", CJson.obj [("language", CJson.str "en"),
              ("country", CJson.str "GB")])]] false none none =
          .ok (stf, resp, calls)
        ∧ resp.mappedItems =
          [CJson.obj [("fsType", CJson.str "MysteryKind"),
            ("identifier", CJson.str "i1"),
            ("locale", CJson.obj [("language", CJson.str "en"),
              ("country", CJson.str "GB")])]] := by
  have hall : ∀ it ∈ [CJson.obj [("fsType", CJson.str "MysteryKind"),
      ("identifier", CJson.str "i1"),
      ("locale", CJson.obj [("language", CJson.str "en"),
        ("country", CJson.str "GB")])]],
      recognizedTopLevelKind (it.get "fsType") = false
      ∧ wellFormedRawItem it := by
    intro it hit
    rw [List.mem_singleton] at hit
    subst hit
    exact ⟨rfl, rfl, rfl, rfl, rfl⟩
  have hnodup : (([CJson.obj [("fsType", CJson.str "MysteryKind"),
      ("identifier", CJson.str "i1"),
      ("locale", CJson.obj [("language", CJson.str "en"),
        ("country", CJson.str "GB")])]]).map rawItemCanonicalId).Nodup := by
    simp
  obtain ⟨stf, resp, calls, h1, h2, _⟩ := caas_C9 1 ctxFix [] 10
    [CJson.obj [("fsType", CJson.str "MysteryKind"),
      ("identifier", CJson.str "i1"),
      ("locale", CJson.obj [("language", CJson.str "en"),
        ("country", CJson.str "GB")])]] hall hnodup
  exact ⟨hall, hnodup, stf, resp, calls, h1, h2⟩
